import Mathlib

/-!
# Topology store of the kvrocks controller: node and shard operations

A shallow embedding of `storage/storage_node.go` and `storage/storage_shard.go`.

* Go slices are `Option (List α)`: `none` is the nil slice, `some l` a non-nil
  slice with elements `l`.  The code tests slices against nil, so the
  distinction is kept.
* A Go function returning `error` becomes a function returning `Ret`,
  which is a normal return with or without an error, or a run-time panic
  (index out of range).
* The store is passed explicitly; a mutating method returns the new store
  together with its `Ret`.
* Pointer arguments (`node`, `shard`) are non-nil and passed by value.
* A call runs from start to end on its own: the reader-writer lock that
  every method takes is not part of the model.
-/

namespace Storage

/-! ## Data model (package metadata) -/

/-- Modelled from the spec: the role of a node, Master or Replica (the
 declaration of `metadata.NodeInfo` is outside the sources). -/
inductive Role where
  | Master
  | Replica
  deriving DecidableEq, Repr

/-- Membership record of a database server, `metadata.NodeInfo`, with the
 fields the store reads. -/
structure NodeInfo where
  ID : String
  Address : String
  Role : Role
  deriving DecidableEq, Repr

/-- Modelled from the spec: `NodeInfo.IsMaster` is declared outside the
 sources; a node is a master when its role is Master. -/
def NodeInfo.IsMaster (node : NodeInfo) : Bool :=
  decide (node.Role = Role.Master)

/-- Modelled from the spec: a contiguous interval over the hash-slot space,
 `metadata.SlotRange`; the store never looks inside one. -/
structure SlotRange where
  Start : Int
  Stop : Int
  deriving DecidableEq, Repr

/-- Positional member of a cluster, `metadata.Shard`: a slice of nodes and a
 slice of slot ranges (only the length of `SlotRanges` is ever read by the
 store, so it is kept as a plain list). -/
structure Shard where
  Nodes : Option (List NodeInfo)
  SlotRanges : List SlotRange
  deriving DecidableEq, Repr

/-- Go's arithmetic on `int64`: a result outside the range from -2^63 to
 2^63 - 1 wraps around into it. -/
def wrapInt64 (x : Int) : Int :=
  (x + 9223372036854775808) % 18446744073709551616 - 9223372036854775808

/-- The integer is a value of Go's `int64`. -/
def isInt64 (v : Int) : Prop :=
  -9223372036854775808 ≤ v ∧ v ≤ 9223372036854775807

/-- Topology of one cluster, `metadata.Cluster`.  `Version` is the 64-bit
 counter of the cluster (its declaration is outside the sources, the spec
 gives its width): an integer in the range of `int64`, on which `Version++`
 is `wrapInt64 (Version + 1)`. -/
structure Cluster where
  Version : Int
  Shards : Option (List Shard)
  deriving DecidableEq, Repr

/-- Error codes of `metadata.NewError`. -/
inductive Code where
  | CodeExisted
  | CodeNoExists
  deriving DecidableEq, Repr

/-- Error values the store returns.  Each constructor is one way the code
 builds an error. -/
inductive Error where
  /-- The package variable `ErrSlaveNoSupport` (the spec's ErrNotLeader). -/
  | ErrSlaveNoSupport
  /-- The variable `metadata.ErrShardIndexOutOfRange`. -/
  | ErrShardIndexOutOfRange
  /-- The variable `metadata.ErrNodeNoExists`. -/
  | ErrNodeNoExists
  /-- The variable `metadata.ErrClusterNoExists`, returned by `GetClusterCopy`. -/
  | ErrClusterNoExists
  /-- The call `metadata.NewError(resource, code, message)`. -/
  | NewError (resource : String) (code : Code) (message : String)
  /-- The calls `errors.New(text)` and `fmt.Errorf(text)`. -/
  | New (text : String)
  /-- The call `fmt.Errorf(text + ": %w", err)`. -/
  | Wrap (text : String) (err : Error)
  /-- The error `updateCluster` returns when the persistence layer fails
   (the spec's ErrCommitFailed), with its cause. -/
  | Persist (cause : String)
  deriving DecidableEq, Repr

/-- Event types. -/
inductive EventType where
  | EventCluster
  | EventShard
  | EventNode
  deriving DecidableEq, Repr

/-- Event commands. -/
inductive Command where
  | CommandCreate
  | CommandRemove
  | CommandUpdate
  | CommandAddSlots
  | CommandRemoveSlots
  deriving DecidableEq, Repr

/-- Record handed to `EmitEvent`.  A field the code leaves out of the
 composite literal has Go's zero value (`NodeID` is the empty string for
 shard events).  The field `Type` of the code is `Type_` here. -/
structure Event where
  Namespace : String
  Cluster : String
  Shard : Int
  NodeID : String
  Type_ : EventType
  Command : Command
  deriving DecidableEq, Repr

/-- Outcome of a call: a normal return without error, a normal return with
 an error, or a run-time panic. -/
inductive Ret (α : Type) where
  | ok (val : α)
  | err (e : Error)
  | panic
  deriving DecidableEq, Repr

/-! ## Go slices -/

/-- Go's `len` on a slice. -/
def len {α : Type} (s : Option (List α)) : Nat :=
  match s with
  | none => 0
  | some l => l.length

/-- Elements a `range` loop over the slice visits, in order. -/
def elems {α : Type} (s : Option (List α)) : List α :=
  match s with
  | none => []
  | some l => l

/-- Go's `append(s, x)`: the result is never nil. -/
def append {α : Type} (s : Option (List α)) (x : α) : Option (List α) :=
  some (elems s ++ [x])

/-- Go's `append(s[:i], s[i+1:]...)` for `0 ≤ i < len(s)`: the slice without
 its element at position `i`.  The slice expressions panic (`none`) when `i`
 is out of range; on a slice that has an element the result is never nil. -/
def splice {α : Type} (s : Option (List α)) (i : Nat) : Option (Option (List α)) :=
  if i < len s then some (some ((elems s).take i ++ (elems s).drop (i + 1))) else none

/-- Go's `s[i] = x`: panics (`none`) when `i` is out of range. -/
def assign {α : Type} (s : Option (List α)) (i : Nat) (x : α) : Option (Option (List α)) :=
  if i < len s then some (some ((elems s).set i x)) else none

/-! ## The store and its collaborators -/

/-- The in-memory state of a `Storage`: the local topology view, keyed by
 namespace and cluster name, and the log of events handed to `EmitEvent`,
 oldest first. -/
structure Store where
  clusters : List ((String × String) × Cluster)
  events : List Event
  deriving DecidableEq, Repr

/-- What the collaborators answer during one call: `leader` is the value
 of `selfLeaderWithUnLock()`, `commitErr` is the cause of the failure of the
 persistence layer inside `updateCluster`, if it fails. -/
structure Env where
  leader : Bool
  commitErr : Option String
  deriving DecidableEq, Repr

/-- Modelled from the spec: the slot arithmetic `metadata.MergeSlotRanges`
 and `metadata.RemoveSlotRanges` is outside the sources and is taken as a
 pair of functions. -/
structure SlotArith where
  MergeSlotRanges : List SlotRange → List SlotRange → List SlotRange
  RemoveSlotRanges : List SlotRange → List SlotRange → List SlotRange

/-- Look a cluster up in the local view. -/
def lookup (ns cluster : String) :
    List ((String × String) × Cluster) → Option Cluster
  | [] => none
  | (k, c) :: rest => if k = (ns, cluster) then some c else lookup ns cluster rest

/-- Replace the cluster stored under a key. -/
def replace (ns cluster : String) (topo : Cluster) :
    List ((String × String) × Cluster) → List ((String × String) × Cluster)
  | [] => []
  | (k, c) :: rest =>
    if k = (ns, cluster) then (k, topo) :: rest else (k, c) :: replace ns cluster topo rest

/-- Modelled from the spec: `local.GetClusterCopy` is outside the sources;
 it returns a deep copy of the cluster, or fails when the cluster does not
 exist. -/
def GetClusterCopy (stor : Store) (ns cluster : String) : Except Error Cluster :=
  match lookup ns cluster stor.clusters with
  | none => Except.error Error.ErrClusterNoExists
  | some topo => Except.ok topo

/-- Modelled from the spec: `updateCluster` is outside the sources; it
 replaces the in-memory and persisted cluster together, and a failed
 persistence leaves the store unchanged and is returned. -/
def updateCluster (env : Env) (stor : Store) (ns cluster : String) (topo : Cluster) :
    Store × Option Error :=
  match env.commitErr with
  | some cause => (stor, some (Error.Persist cause))
  | none => ({ stor with clusters := replace ns cluster topo stor.clusters }, none)

/-- Modelled from the spec: `EmitEvent` is outside the sources; the log
 records every event handed to it, in order (the delivery through the
 bounded channel, which may drop an event, is not modelled). -/
def EmitEvent (stor : Store) (ev : Event) : Store :=
  { stor with events := stor.events ++ [ev] }

/-- The shard at an index the caller has checked to be in range; indexing
 panics (`none`) otherwise. -/
def shardAt (topo : Cluster) (shardIdx : Int) : Option Shard :=
  if shardIdx < 0 then none else (elems topo.Shards)[shardIdx.toNat]?

/-- The assignment `topo.Shards[shardIdx].Nodes = nodes`. -/
def setNodes (topo : Cluster) (shardIdx : Int) (nodes : Option (List NodeInfo)) :
    Option Cluster :=
  match shardAt topo shardIdx with
  | none => none
  | some shard =>
    match assign topo.Shards shardIdx.toNat { shard with Nodes := nodes } with
    | none => none
    | some shards => some { topo with Shards := shards }

/-! ## storage_node.go -/

/-- CreateNode add a node under the specified shard. -/
def CreateNode (env : Env) (stor : Store) (ns cluster : String) (shardIdx : Int)
    (node : NodeInfo) : Store × Ret Unit :=
  if !env.leader then (stor, Ret.err Error.ErrSlaveNoSupport) else
  match GetClusterCopy stor ns cluster with
  | Except.error err => (stor, Ret.err (Error.Wrap "get cluster" err))
  | Except.ok topo =>
    if shardIdx ≥ (len topo.Shards : Int) ∨ shardIdx < 0 then
      (stor, Ret.err Error.ErrShardIndexOutOfRange)
    else
    match shardAt topo shardIdx with
    | none => (stor, Ret.panic)
    | some shard =>
      let shard : Shard :=
        if shard.Nodes = none then { shard with Nodes := some [] } else shard
      if (elems shard.Nodes).any (fun existedNode => existedNode.Address = node.Address) then
        (stor, Ret.err (Error.NewError "existedNode" Code.CodeExisted ""))
      else if len shard.Nodes = 0 ∧ !node.IsMaster then
        (stor, Ret.err (Error.New "you MUST add master node first"))
      else if len shard.Nodes ≠ 0 ∧ node.IsMaster then
        (stor, Ret.err (Error.New "the master node has already added in this shard"))
      else
      let topo : Cluster := { topo with Version := wrapInt64 (topo.Version + 1) }
      match shardAt topo shardIdx with
      | none => (stor, Ret.panic)
      | some cur =>
        match setNodes topo shardIdx (append cur.Nodes node) with
        | none => (stor, Ret.panic)
        | some topo =>
          match updateCluster env stor ns cluster topo with
          | (stor, some err) => (stor, Ret.err err)
          | (stor, none) =>
            (EmitEvent stor
              { Namespace := ns, Cluster := cluster, Shard := shardIdx, NodeID := node.ID,
                Type_ := EventType.EventNode, Command := Command.CommandCreate },
             Ret.ok ())

/-- Position of the first node whose ID is `nodeID`, the result of the
 lookup loop of `RemoveNode` (`none` stands for the `-1` the loop starts from). -/
def nodeIndex (nodeID : String) : List NodeInfo → Option Nat
  | [] => none
  | node :: rest =>
    if node.ID = nodeID then some 0
    else
      match nodeIndex nodeID rest with
      | none => none
      | some idx => some (idx + 1)

/-- The slot and role checks of `RemoveNode` on the node found: the error
 they return, if any. -/
def removeCheck (shard : Shard) (node : NodeInfo) : Option Error :=
  if shard.SlotRanges.length ≠ 0 then
    if len shard.Nodes = 1 ∨ node.IsMaster then
      some (Error.New "still some slots in this shard, please migrate them first")
    else none
  else
    if node.IsMaster ∧ len shard.Nodes > 1 then
      some (Error.New "please remove slave Shards first")
    else none

/-- RemoveNode delete the node from the specified shard. -/
def RemoveNode (env : Env) (stor : Store) (ns cluster : String) (shardIdx : Int)
    (nodeID : String) : Store × Ret Unit :=
  if !env.leader then (stor, Ret.err Error.ErrSlaveNoSupport) else
  match GetClusterCopy stor ns cluster with
  | Except.error err => (stor, Ret.err (Error.Wrap "get cluster" err))
  | Except.ok topo =>
    if shardIdx ≥ (len topo.Shards : Int) ∨ shardIdx < 0 then
      (stor, Ret.err Error.ErrShardIndexOutOfRange)
    else
    match shardAt topo shardIdx with
    | none => (stor, Ret.panic)
    | some shard =>
      if shard.Nodes = none then
        (stor, Ret.err (Error.NewError "node" Code.CodeNoExists ""))
      else
      match nodeIndex nodeID (elems shard.Nodes) with
      | none => (stor, Ret.err (Error.NewError "node" Code.CodeNoExists ""))
      | some nodeIdx =>
        match (elems shard.Nodes)[nodeIdx]? with
        | none => (stor, Ret.panic)
        | some node =>
          match removeCheck shard node with
          | some err => (stor, Ret.err err)
          | none =>
            let topo : Cluster := { topo with Version := wrapInt64 (topo.Version + 1) }
            match shardAt topo shardIdx with
            | none => (stor, Ret.panic)
            | some cur =>
              match splice cur.Nodes nodeIdx with
              | none => (stor, Ret.panic)
              | some nodes =>
                match setNodes topo shardIdx nodes with
                | none => (stor, Ret.panic)
                | some topo =>
                  match updateCluster env stor ns cluster topo with
                  | (stor, some err) => (stor, Ret.err err)
                  | (stor, none) =>
                    (EmitEvent stor
                      { Namespace := ns, Cluster := cluster, Shard := shardIdx,
                        NodeID := node.ID, Type_ := EventType.EventNode,
                        Command := Command.CommandRemove },
                     Ret.ok ())

/-- UpdateNode update the exist node under the specified shard. -/
def UpdateNode (env : Env) (stor : Store) (ns cluster : String) (shardIdx : Int)
    (node : NodeInfo) : Store × Ret Unit :=
  if !env.leader then (stor, Ret.err Error.ErrSlaveNoSupport) else
  match GetClusterCopy stor ns cluster with
  | Except.error err => (stor, Ret.err (Error.Wrap "get cluster" err))
  | Except.ok topo =>
    if shardIdx ≥ (len topo.Shards : Int) ∨ shardIdx < 0 then
      (stor, Ret.err Error.ErrShardIndexOutOfRange)
    else
    match shardAt topo shardIdx with
    | none => (stor, Ret.panic)
    | some shard =>
      if shard.Nodes = none then (stor, Ret.err Error.ErrNodeNoExists) else
      match nodeIndex node.ID (elems shard.Nodes) with
      | none => (stor, Ret.err (Error.NewError "node" Code.CodeNoExists ""))
      | some idx =>
        let topo : Cluster := { topo with Version := wrapInt64 (topo.Version + 1) }
        match shardAt topo shardIdx with
        | none => (stor, Ret.panic)
        | some cur =>
          match assign cur.Nodes idx node with
          | none => (stor, Ret.panic)
          | some nodes =>
            match setNodes topo shardIdx nodes with
            | none => (stor, Ret.panic)
            | some topo =>
              match updateCluster env stor ns cluster topo with
              | (stor, some err) => (stor, Ret.err err)
              | (stor, none) =>
                (EmitEvent stor
                  { Namespace := ns, Cluster := cluster, Shard := shardIdx,
                    NodeID := node.ID, Type_ := EventType.EventNode,
                    Command := Command.CommandUpdate },
                 Ret.ok ())

/-! ## storage_shard.go -/

/-- The loop `for i, shard := range topo.Shards { shards[i] = shard }` of
 `ListShard`, started at index `i` with the shards still to visit: the
 destination afterwards, or `none` when an assignment panics. -/
def listShardLoop (shards : Option (List Shard)) (i : Nat) :
    List Shard → Option (Option (List Shard))
  | [] => some shards
  | shard :: rest =>
    match assign shards i shard with
    | none => none
    | some shards => listShardLoop shards (i + 1) rest

/-- ListShard return the list of name of Shard under the specified cluster.
 The destination `make([]metadata.Shard, 0, len(topo.Shards))` is a non-nil
 slice of length zero. -/
def ListShard (env : Env) (stor : Store) (ns cluster : String) :
    Ret (Option (List Shard)) :=
  if !env.leader then Ret.err Error.ErrSlaveNoSupport else
  match GetClusterCopy stor ns cluster with
  | Except.error err => Ret.err err
  | Except.ok topo =>
    let shards : Option (List Shard) := some []
    match listShardLoop shards 0 (elems topo.Shards) with
    | none => Ret.panic
    | some shards => Ret.ok shards

/-- The unexported `getShard`: goroutine unsafety of GetShard, assumption
 caller has hold the lock. -/
def getShard (stor : Store) (ns cluster : String) (shardIdx : Int) : Ret Shard :=
  match GetClusterCopy stor ns cluster with
  | Except.error err => Ret.err err
  | Except.ok topo =>
    if topo.Shards = none then Ret.err (Error.NewError "shard" Code.CodeNoExists "") else
    if shardIdx ≥ (len topo.Shards : Int) ∨ shardIdx < 0 then
      Ret.err Error.ErrShardIndexOutOfRange
    else
    match shardAt topo shardIdx with
    | none => Ret.panic
    | some shard => Ret.ok shard

/-- GetShard retun the shard under the specified cluster. -/
def GetShard (env : Env) (stor : Store) (ns cluster : String) (shardIdx : Int) : Ret Shard :=
  if !env.leader then Ret.err Error.ErrSlaveNoSupport else
  getShard stor ns cluster shardIdx

/-- Go's `copy(dst, src)`: the first `min(len(dst), len(src))` elements of
 `dst` are overwritten by those of `src`. -/
def copy {α : Type} (dst src : Option (List α)) : Option (List α) :=
  match dst with
  | none => none
  | some d =>
    some ((elems src).take (min d.length (len src)) ++ d.drop (min d.length (len src)))

/-- ListNodes return the list of nodes under the specified shard.  The
 destination `make([]metadata.NodeInfo, 0, len(shard.Nodes))` is a non-nil
 slice of length zero. -/
def ListNodes (env : Env) (stor : Store) (ns cluster : String) (shardIdx : Int) :
    Ret (Option (List NodeInfo)) :=
  if !env.leader then Ret.err Error.ErrSlaveNoSupport else
  match getShard stor ns cluster shardIdx with
  | Ret.err err => Ret.err (Error.Wrap "get shard" err)
  | Ret.panic => Ret.panic
  | Ret.ok shard =>
    let nodes : Option (List NodeInfo) := some []
    let nodes := copy nodes shard.Nodes
    Ret.ok nodes

/-- CreateShard add a shard under the specified cluster. -/
def CreateShard (env : Env) (stor : Store) (ns cluster : String) (shard : Shard) :
    Store × Ret Unit :=
  if !env.leader then (stor, Ret.err Error.ErrSlaveNoSupport) else
  match GetClusterCopy stor ns cluster with
  | Except.error err => (stor, Ret.err err)
  | Except.ok topo =>
    let topo : Cluster := { topo with Version := wrapInt64 (topo.Version + 1) }
    let topo : Cluster := { topo with Shards := append topo.Shards shard }
    match updateCluster env stor ns cluster topo with
    | (stor, some err) => (stor, Ret.err err)
    | (stor, none) =>
      (EmitEvent stor
        { Namespace := ns, Cluster := cluster, Shard := (len topo.Shards : Int) - 1,
          NodeID := "", Type_ := EventType.EventShard, Command := Command.CommandCreate },
       Ret.ok ())

/-- RemoveShard delete the shard under the specified cluster. -/
def RemoveShard (env : Env) (stor : Store) (ns cluster : String) (shardIdx : Int) :
    Store × Ret Unit :=
  if !env.leader then (stor, Ret.err Error.ErrSlaveNoSupport) else
  match GetClusterCopy stor ns cluster with
  | Except.error err => (stor, Ret.err err)
  | Except.ok topo =>
    if shardIdx ≥ (len topo.Shards : Int) ∨ shardIdx < 0 then
      (stor, Ret.err Error.ErrShardIndexOutOfRange)
    else
    match shardAt topo shardIdx with
    | none => (stor, Ret.panic)
    | some shard =>
      if shard.SlotRanges.length > 0 then
        (stor, Ret.err (Error.New "need to delete all slots before removing shard"))
      else
      let topo : Cluster := { topo with Version := wrapInt64 (topo.Version + 1) }
      match splice topo.Shards shardIdx.toNat with
      | none => (stor, Ret.panic)
      | some shards =>
        let topo : Cluster := { topo with Shards := shards }
        match updateCluster env stor ns cluster topo with
        | (stor, some err) => (stor, Ret.err err)
        | (stor, none) =>
          (EmitEvent stor
            { Namespace := ns, Cluster := cluster, Shard := shardIdx, NodeID := "",
              Type_ := EventType.EventShard, Command := Command.CommandRemove },
           Ret.ok ())

/-- The assignment `topo.Shards[shardIdx].SlotRanges = slotRanges`. -/
def setSlotRanges (topo : Cluster) (shardIdx : Int) (slotRanges : List SlotRange) :
    Option Cluster :=
  match shardAt topo shardIdx with
  | none => none
  | some shard =>
    match assign topo.Shards shardIdx.toNat { shard with SlotRanges := slotRanges } with
    | none => none
    | some shards => some { topo with Shards := shards }

/-- AddShardSlots add slotRanges to the specified shard under the specified
 cluster. -/
def AddShardSlots (m : SlotArith) (env : Env) (stor : Store) (ns cluster : String)
    (shardIdx : Int) (slotRanges : List SlotRange) : Store × Ret Unit :=
  if !env.leader then (stor, Ret.err Error.ErrSlaveNoSupport) else
  match GetClusterCopy stor ns cluster with
  | Except.error err => (stor, Ret.err err)
  | Except.ok topo =>
    match getShard stor ns cluster shardIdx with
    | Ret.err err => (stor, Ret.err (Error.Wrap "get shard" err))
    | Ret.panic => (stor, Ret.panic)
    | Ret.ok shard =>
      if len shard.Nodes = 0 then
        (stor, Ret.err (Error.New "the shard was empty, please add Shards first"))
      else
      let topo : Cluster := { topo with Version := wrapInt64 (topo.Version + 1) }
      match setSlotRanges topo shardIdx (m.MergeSlotRanges shard.SlotRanges slotRanges) with
      | none => (stor, Ret.panic)
      | some topo =>
        match updateCluster env stor ns cluster topo with
        | (stor, some err) => (stor, Ret.err err)
        | (stor, none) =>
          (EmitEvent stor
            { Namespace := ns, Cluster := cluster, Shard := shardIdx, NodeID := "",
              Type_ := EventType.EventShard, Command := Command.CommandAddSlots },
           Ret.ok ())

/-- RemoveShardSlots delete slotRanges from the specified shard under the
 specified cluster. -/
def RemoveShardSlots (m : SlotArith) (env : Env) (stor : Store) (ns cluster : String)
    (shardIdx : Int) (slotRanges : List SlotRange) : Store × Ret Unit :=
  if !env.leader then (stor, Ret.err Error.ErrSlaveNoSupport) else
  match GetClusterCopy stor ns cluster with
  | Except.error err => (stor, Ret.err err)
  | Except.ok topo =>
    match getShard stor ns cluster shardIdx with
    | Ret.err err => (stor, Ret.err (Error.Wrap "get shard" err))
    | Ret.panic => (stor, Ret.panic)
    | Ret.ok shard =>
      let topo : Cluster := { topo with Version := wrapInt64 (topo.Version + 1) }
      match setSlotRanges topo shardIdx (m.RemoveSlotRanges shard.SlotRanges slotRanges) with
      | none => (stor, Ret.panic)
      | some topo =>
        match updateCluster env stor ns cluster topo with
        | (stor, some err) => (stor, Ret.err err)
        | (stor, none) =>
          (EmitEvent stor
            { Namespace := ns, Cluster := cluster, Shard := shardIdx, NodeID := "",
              Type_ := EventType.EventShard, Command := Command.CommandRemoveSlots },
           Ret.ok ())

/-! ## Calls and runs -/

/-- A call of a public operation with its arguments. -/
inductive Call where
  | ListShard (ns cluster : String)
  | GetShard (ns cluster : String) (shardIdx : Int)
  | ListNodes (ns cluster : String) (shardIdx : Int)
  | CreateShard (ns cluster : String) (shard : Shard)
  | RemoveShard (ns cluster : String) (shardIdx : Int)
  | AddShardSlots (ns cluster : String) (shardIdx : Int) (slotRanges : List SlotRange)
  | RemoveShardSlots (ns cluster : String) (shardIdx : Int) (slotRanges : List SlotRange)
  | CreateNode (ns cluster : String) (shardIdx : Int) (node : NodeInfo)
  | UpdateNode (ns cluster : String) (shardIdx : Int) (node : NodeInfo)
  | RemoveNode (ns cluster : String) (shardIdx : Int) (nodeID : String)
  deriving DecidableEq, Repr

/-- What a call hands back besides its error. -/
inductive Reply where
  | unit
  | shards (val : Option (List Shard))
  | shard (val : Shard)
  | nodes (val : Option (List NodeInfo))
  deriving DecidableEq, Repr

/-- Forget the type of the returned value. -/
def Ret.reply {α : Type} (f : α → Reply) : Ret α → Ret Reply
  | Ret.ok val => Ret.ok (f val)
  | Ret.err e => Ret.err e
  | Ret.panic => Ret.panic

/-- Perform one call on the store. -/
def exec (m : SlotArith) (env : Env) (stor : Store) : Call → Store × Ret Reply
  | Call.ListShard ns cluster => (stor, (ListShard env stor ns cluster).reply Reply.shards)
  | Call.GetShard ns cluster idx => (stor, (GetShard env stor ns cluster idx).reply Reply.shard)
  | Call.ListNodes ns cluster idx =>
    (stor, (ListNodes env stor ns cluster idx).reply Reply.nodes)
  | Call.CreateShard ns cluster shard =>
    ((CreateShard env stor ns cluster shard).1,
     (CreateShard env stor ns cluster shard).2.reply (fun _ => Reply.unit))
  | Call.RemoveShard ns cluster idx =>
    ((RemoveShard env stor ns cluster idx).1,
     (RemoveShard env stor ns cluster idx).2.reply (fun _ => Reply.unit))
  | Call.AddShardSlots ns cluster idx ranges =>
    ((AddShardSlots m env stor ns cluster idx ranges).1,
     (AddShardSlots m env stor ns cluster idx ranges).2.reply (fun _ => Reply.unit))
  | Call.RemoveShardSlots ns cluster idx ranges =>
    ((RemoveShardSlots m env stor ns cluster idx ranges).1,
     (RemoveShardSlots m env stor ns cluster idx ranges).2.reply (fun _ => Reply.unit))
  | Call.CreateNode ns cluster idx node =>
    ((CreateNode env stor ns cluster idx node).1,
     (CreateNode env stor ns cluster idx node).2.reply (fun _ => Reply.unit))
  | Call.UpdateNode ns cluster idx node =>
    ((UpdateNode env stor ns cluster idx node).1,
     (UpdateNode env stor ns cluster idx node).2.reply (fun _ => Reply.unit))
  | Call.RemoveNode ns cluster idx nodeID =>
    ((RemoveNode env stor ns cluster idx nodeID).1,
     (RemoveNode env stor ns cluster idx nodeID).2.reply (fun _ => Reply.unit))

/-- Slot arithmetic used to evaluate examples: merging concatenates and
 removal filters, without canonicalisation. -/
def listArith : SlotArith where
  MergeSlotRanges := fun have_ more => have_ ++ more
  RemoveSlotRanges := fun have_ gone => have_.filter (fun r => !gone.contains r)

/-- Whether the call is one of the seven mutations. -/
def Call.isMutation : Call → Bool
  | Call.ListShard _ _ => false
  | Call.GetShard _ _ _ => false
  | Call.ListNodes _ _ _ => false
  | _ => true

/-- Namespace and cluster the call addresses. -/
def Call.target : Call → String × String
  | Call.ListShard ns cluster => (ns, cluster)
  | Call.GetShard ns cluster _ => (ns, cluster)
  | Call.ListNodes ns cluster _ => (ns, cluster)
  | Call.CreateShard ns cluster _ => (ns, cluster)
  | Call.RemoveShard ns cluster _ => (ns, cluster)
  | Call.AddShardSlots ns cluster _ _ => (ns, cluster)
  | Call.RemoveShardSlots ns cluster _ _ => (ns, cluster)
  | Call.CreateNode ns cluster _ _ => (ns, cluster)
  | Call.UpdateNode ns cluster _ _ => (ns, cluster)
  | Call.RemoveNode ns cluster _ _ => (ns, cluster)

/-- Whether the call returned normally without an error. -/
def Ret.isOk {α : Type} : Ret α → Bool
  | Ret.ok _ => true
  | _ => false

/-- Whether the call is a mutation that the store accepts. -/
def accepted (m : SlotArith) (env : Env) (stor : Store) (call : Call) : Bool :=
  call.isMutation && (exec m env stor call).2.isOk

/-- Perform a sequence of calls, each with the answers its collaborators
 give, and return the store at the end. -/
def execAll (m : SlotArith) (stor : Store) : List (Env × Call) → Store
  | [] => stor
  | (env, call) :: rest => execAll m (exec m env stor call).1 rest

/-- Number of accepted mutations of the cluster in a sequence of calls. -/
def acceptedCount (m : SlotArith) (ns cluster : String) (stor : Store) :
    List (Env × Call) → Nat
  | [] => 0
  | (env, call) :: rest =>
    (if accepted m env stor call = true ∧ call.target = (ns, cluster) then 1 else 0) +
      acceptedCount m ns cluster (exec m env stor call).1 rest

/-- The common tail of the mutators in closed form: the commit of the new
 topology followed by the emission of the event. -/
def commit (env : Env) (stor : Store) (ns cluster : String) (topo : Cluster) (ev : Event) :
    Store × Ret Unit :=
  match env.commitErr with
  | some cause => (stor, Ret.err (Error.Persist cause))
  | none =>
    ({ clusters := replace ns cluster topo stor.clusters, events := stor.events ++ [ev] },
     Ret.ok ())

/-- The cluster with its version advanced by one and the shard at
 `shardIdx` replaced. -/
def withShard (topo : Cluster) (shardIdx : Int) (shard : Shard) : Cluster :=
  { Version := wrapInt64 (topo.Version + 1), Shards := some ((elems topo.Shards).set shardIdx.toNat shard) }

/-! ## Accepted calls as transitions -/

/-- What an accepted call addressed to shard `shardIdx` does to that shard:
 `ShardStep m shard shardIdx call shard2 ev` holds when the call passes the
 checks of its operation on `shard`, turns it into `shard2` and emits `ev`. -/
inductive ShardStep (m : SlotArith) (shard : Shard) (shardIdx : Int) :
    Call → Shard → Event → Prop where
  | addShardSlots (ns cluster : String) (slotRanges : List SlotRange)
      (hnodes : len shard.Nodes ≠ 0) :
      ShardStep m shard shardIdx (Call.AddShardSlots ns cluster shardIdx slotRanges)
        { shard with SlotRanges := m.MergeSlotRanges shard.SlotRanges slotRanges }
        { Namespace := ns, Cluster := cluster, Shard := shardIdx, NodeID := "",
          Type_ := EventType.EventShard, Command := Command.CommandAddSlots }
  | removeShardSlots (ns cluster : String) (slotRanges : List SlotRange) :
      ShardStep m shard shardIdx (Call.RemoveShardSlots ns cluster shardIdx slotRanges)
        { shard with SlotRanges := m.RemoveSlotRanges shard.SlotRanges slotRanges }
        { Namespace := ns, Cluster := cluster, Shard := shardIdx, NodeID := "",
          Type_ := EventType.EventShard, Command := Command.CommandRemoveSlots }
  | createNode (ns cluster : String) (node : NodeInfo)
      (hfresh : ∀ n ∈ elems shard.Nodes, n.Address ≠ node.Address)
      (hfirst : len shard.Nodes = 0 → node.IsMaster = true)
      (hrest : len shard.Nodes ≠ 0 → node.IsMaster = false) :
      ShardStep m shard shardIdx (Call.CreateNode ns cluster shardIdx node)
        { shard with Nodes := some (elems shard.Nodes ++ [node]) }
        { Namespace := ns, Cluster := cluster, Shard := shardIdx, NodeID := node.ID,
          Type_ := EventType.EventNode, Command := Command.CommandCreate }
  | updateNode (ns cluster : String) (node : NodeInfo) (idx : Nat)
      (hidx : nodeIndex node.ID (elems shard.Nodes) = some idx) :
      ShardStep m shard shardIdx (Call.UpdateNode ns cluster shardIdx node)
        { shard with Nodes := some ((elems shard.Nodes).set idx node) }
        { Namespace := ns, Cluster := cluster, Shard := shardIdx, NodeID := node.ID,
          Type_ := EventType.EventNode, Command := Command.CommandUpdate }
  | removeNode (ns cluster nodeID : String) (nodeIdx : Nat) (node : NodeInfo)
      (hidx : nodeIndex nodeID (elems shard.Nodes) = some nodeIdx)
      (hnode : (elems shard.Nodes)[nodeIdx]? = some node)
      (hcheck : removeCheck shard node = none) :
      ShardStep m shard shardIdx (Call.RemoveNode ns cluster shardIdx nodeID)
        { shard with
          Nodes := some ((elems shard.Nodes).take nodeIdx ++
            (elems shard.Nodes).drop (nodeIdx + 1)) }
        { Namespace := ns, Cluster := cluster, Shard := shardIdx, NodeID := node.ID,
          Type_ := EventType.EventNode, Command := Command.CommandRemove }

/-- What an accepted call does to its cluster: `Effect m topo call topo2 ev`
 holds when the call passes the checks of its operation on `topo`, commits
 `topo2` and emits `ev`. -/
inductive Effect (m : SlotArith) (topo : Cluster) : Call → Cluster → Event → Prop where
  | createShard (ns cluster : String) (shard : Shard) :
      Effect m topo (Call.CreateShard ns cluster shard)
        { Version := wrapInt64 (topo.Version + 1), Shards := some (elems topo.Shards ++ [shard]) }
        { Namespace := ns, Cluster := cluster, Shard := (len topo.Shards : Int), NodeID := "",
          Type_ := EventType.EventShard, Command := Command.CommandCreate }
  | removeShard (ns cluster : String) (shardIdx : Int) (shard : Shard)
      (hin : 0 ≤ shardIdx ∧ shardIdx < (len topo.Shards : Int))
      (hs : (elems topo.Shards)[shardIdx.toNat]? = some shard)
      (hslots : ¬ shard.SlotRanges.length > 0) :
      Effect m topo (Call.RemoveShard ns cluster shardIdx)
        { Version := wrapInt64 (topo.Version + 1),
          Shards := some ((elems topo.Shards).take shardIdx.toNat ++
            (elems topo.Shards).drop (shardIdx.toNat + 1)) }
        { Namespace := ns, Cluster := cluster, Shard := shardIdx, NodeID := "",
          Type_ := EventType.EventShard, Command := Command.CommandRemove }
  | onShard (call : Call) (shardIdx : Int) (shard shard2 : Shard) (ev : Event)
      (hin : 0 ≤ shardIdx ∧ shardIdx < (len topo.Shards : Int))
      (hs : (elems topo.Shards)[shardIdx.toNat]? = some shard)
      (hstep : ShardStep m shard shardIdx call shard2 ev) :
      Effect m topo call (withShard topo shardIdx shard2) ev

/-- The two ways a mutator ends: the call is accepted, with the effect on
 its cluster committed and the event logged, or the store is as it was and
 the call did not return without error. -/
def View (m : SlotArith) (env : Env) (stor : Store) (call : Call)
    (out : Store × Ret Unit) : Prop :=
  (∃ topo topo2 ev,
      GetClusterCopy stor call.target.1 call.target.2 = Except.ok topo ∧
      Effect m topo call topo2 ev ∧ env.leader = true ∧ env.commitErr = none ∧
      out = ({ clusters := replace call.target.1 call.target.2 topo2 stor.clusters,
               events := stor.events ++ [ev] }, Ret.ok ())) ∨
    (out.1 = stor ∧ out.2 ≠ Ret.ok ())

/-! ## Reachable states and shard predicates -/

/-- Stores reachable from `init` by accepted mutations, each of which
 satisfies `allowed` on the store it is applied to. -/
inductive Reachable (m : SlotArith) (allowed : Store → Call → Prop) (init : Store) :
    Store → Prop where
  | start : Reachable m allowed init init
  | step (stor : Store) (env : Env) (call : Call) (hreach : Reachable m allowed init stor)
      (hacc : accepted m env stor call = true) (hallowed : allowed stor call) :
      Reachable m allowed init (exec m env stor call).1

/-- No restriction on the calls. -/
def anyCall : Store → Call → Prop := fun _ _ => True

/-- The shard a call with these arguments addresses, if it exists. -/
def targetShard (stor : Store) (ns cluster : String) (shardIdx : Int) : Option Shard :=
  match GetClusterCopy stor ns cluster with
  | Except.error _ => none
  | Except.ok topo => shardAt topo shardIdx

/-- The node `UpdateNode` replaces: the first node of the shard with the ID. -/
def replacedNode (shard : Shard) (nodeID : String) : Option NodeInfo :=
  match nodeIndex nodeID (elems shard.Nodes) with
  | none => none
  | some idx => (elems shard.Nodes)[idx]?

/-- Number of nodes of the shard whose role is Master. -/
def masters (shard : Shard) : Nat :=
  (elems shard.Nodes).countP (fun n => n.IsMaster)

/-- A shard that has a node has exactly one Master. -/
def OneMaster (shard : Shard) : Prop :=
  len shard.Nodes ≠ 0 → masters shard = 1

/-- The addresses of the nodes of the shard are pairwise distinct. -/
def DistinctAddresses (shard : Shard) : Prop :=
  ((elems shard.Nodes).map (fun n => n.Address)).Nodup

/-- A shard that has a node or owns a slot range contains a Master. -/
def HasMaster (shard : Shard) : Prop :=
  (len shard.Nodes ≠ 0 ∨ shard.SlotRanges ≠ []) →
    ∃ n ∈ elems shard.Nodes, n.IsMaster = true

/-- Calls under which a single Master per shard is kept: a shard handed to
 `CreateShard` has one Master if it has nodes, and `UpdateNode` keeps the
 role of the node it replaces. -/
def keepsRoles (stor : Store) : Call → Prop
  | Call.CreateShard _ _ shard => OneMaster shard
  | Call.UpdateNode ns cluster shardIdx node =>
    ∀ shard old, targetShard stor ns cluster shardIdx = some shard →
      replacedNode shard node.ID = some old → node.Role = old.Role
  | _ => True

/-- Calls under which addresses stay distinct: a shard handed to
 `CreateShard` has distinct addresses, and the node given to `UpdateNode`
 has the address of the node it replaces or an address new to the shard. -/
def keepsAddresses (stor : Store) : Call → Prop
  | Call.CreateShard _ _ shard => DistinctAddresses shard
  | Call.UpdateNode ns cluster shardIdx node =>
    ∀ shard old, targetShard stor ns cluster shardIdx = some shard →
      replacedNode shard node.ID = some old →
      node.Address = old.Address ∨ ∀ n ∈ elems shard.Nodes, n.Address ≠ node.Address
  | _ => True

/-- Calls under which a shard with nodes or slots keeps a Master: a shard
 handed to `CreateShard` contains a Master unless it has neither nodes nor
 slot ranges, and `UpdateNode` does not replace a Master by a Replica. -/
def keepsMaster (stor : Store) : Call → Prop
  | Call.CreateShard _ _ shard => HasMaster shard
  | Call.UpdateNode ns cluster shardIdx node =>
    ∀ shard old, targetShard stor ns cluster shardIdx = some shard →
      replacedNode shard node.ID = some old → old.IsMaster = true → node.IsMaster = true
  | _ => True

/-! ## The event log the spec describes -/

/-- The event the spec attaches to an accepted mutation, following the
 spec's words: it carries the namespace and cluster of the call; for
 `CreateShard` the shard index is the new length of the cluster's shard
 sequence minus one, read on the store `after` the call; for the other
 mutations it is the index of the call; node events carry the ID of the node
 created, updated or removed.  Reads have no event. -/
def specEvent (after : Store) : Call → Option Event
  | Call.ListShard _ _ => none
  | Call.GetShard _ _ _ => none
  | Call.ListNodes _ _ _ => none
  | Call.CreateShard ns cluster _ =>
    match GetClusterCopy after ns cluster with
    | Except.error _ => none
    | Except.ok topo =>
      some { Namespace := ns, Cluster := cluster, Shard := (len topo.Shards : Int) - 1,
             NodeID := "", Type_ := EventType.EventShard, Command := Command.CommandCreate }
  | Call.RemoveShard ns cluster idx =>
    some { Namespace := ns, Cluster := cluster, Shard := idx, NodeID := "",
           Type_ := EventType.EventShard, Command := Command.CommandRemove }
  | Call.AddShardSlots ns cluster idx _ =>
    some { Namespace := ns, Cluster := cluster, Shard := idx, NodeID := "",
           Type_ := EventType.EventShard, Command := Command.CommandAddSlots }
  | Call.RemoveShardSlots ns cluster idx _ =>
    some { Namespace := ns, Cluster := cluster, Shard := idx, NodeID := "",
           Type_ := EventType.EventShard, Command := Command.CommandRemoveSlots }
  | Call.CreateNode ns cluster idx node =>
    some { Namespace := ns, Cluster := cluster, Shard := idx, NodeID := node.ID,
           Type_ := EventType.EventNode, Command := Command.CommandCreate }
  | Call.UpdateNode ns cluster idx node =>
    some { Namespace := ns, Cluster := cluster, Shard := idx, NodeID := node.ID,
           Type_ := EventType.EventNode, Command := Command.CommandUpdate }
  | Call.RemoveNode ns cluster idx nodeID =>
    some { Namespace := ns, Cluster := cluster, Shard := idx, NodeID := nodeID,
           Type_ := EventType.EventNode, Command := Command.CommandRemove }

/-- The log the spec describes for a sequence of calls: in order, the
 spec's event of every accepted mutation and nothing for any other call. -/
def expectedEvents (m : SlotArith) : Store → List (Env × Call) → List Event
  | _, [] => []
  | stor, (env, call) :: rest =>
    (if accepted m env stor call = true then
        (specEvent (exec m env stor call).1 call).toList
      else []) ++ expectedEvents m (exec m env stor call).1 rest

/-- The events of a log that belong to a cluster. -/
def eventsOf (ns cluster : String) (log : List Event) : List Event :=
  log.filter (fun ev => decide ((ev.Namespace, ev.Cluster) = (ns, cluster)))

/-! ## The spec's names for the errors the code builds -/

/-- The spec's ErrNodeAlreadyExists: the error of `CreateNode` for a
 duplicate address. -/
def ErrNodeAlreadyExists : Error := Error.NewError "existedNode" Code.CodeExisted ""

/-- The spec's ErrMasterRequiredFirst. -/
def ErrMasterRequiredFirst : Error := Error.New "you MUST add master node first"

/-- The spec's ErrMasterAlreadyPresent. -/
def ErrMasterAlreadyPresent : Error :=
  Error.New "the master node has already added in this shard"

/-- The spec's ErrNodeNotFound, as `RemoveNode` builds it. -/
def ErrNodeNotFound : Error := Error.NewError "node" Code.CodeNoExists ""

/-- The spec's ErrSlotsPresentMigrateFirst. -/
def ErrSlotsPresentMigrateFirst : Error :=
  Error.New "still some slots in this shard, please migrate them first"

/-- The spec's ErrRemoveReplicasFirst. -/
def ErrRemoveReplicasFirst : Error := Error.New "please remove slave Shards first"

/-! ## Sample values -/

/-- A leader whose commits succeed. -/
def leaderEnv : Env := { leader := true, commitErr := none }

/-- A master and a replica. -/
def sampleMaster : NodeInfo := { ID := "n1", Address := "h1:1", Role := Role.Master }

/-- A replica at another address. -/
def sampleReplica : NodeInfo := { ID := "n2", Address := "h2:1", Role := Role.Replica }

/-- A shard with a master, a replica and one slot range. -/
def sampleShard : Shard :=
  { Nodes := some [sampleMaster, sampleReplica], SlotRanges := [{ Start := 0, Stop := 100 }] }

/-- A cluster at version 4 holding the sample shard. -/
def sampleCluster : Cluster := { Version := 4, Shards := some [sampleShard] }

/-- A store holding the sample cluster as cluster c of namespace a. -/
def sampleStore : Store := { clusters := [(("a", "c"), sampleCluster)], events := [] }

/-- A store whose cluster c of namespace a has no shards, at version 0. -/
def emptyStore : Store :=
  { clusters := [(("a", "c"), { Version := 0, Shards := none })], events := [] }

/-- A shard with two Masters. -/
def twoMasters : Shard :=
  { Nodes := some [sampleMaster, { ID := "n2", Address := "h2:1", Role := Role.Master }],
    SlotRanges := [] }

/-- A shard whose two nodes share an address. -/
def sameAddress : Shard :=
  { Nodes := some [sampleMaster, { ID := "n2", Address := "h1:1", Role := Role.Replica }],
    SlotRanges := [] }

/-- A shard that owns a slot range and has no node. -/
def slotsOnly : Shard := { Nodes := none, SlotRanges := [{ Start := 0, Stop := 100 }] }

/-- A shard with no node and no slot range. -/
def emptyShard : Shard := { Nodes := none, SlotRanges := [] }

/-! ## Further names and samples -/

/-- The spec's ErrShardHasSlots, as `RemoveShard` builds it. -/
def ErrShardHasSlots : Error := Error.New "need to delete all slots before removing shard"

/-- The spec's ErrEmptyShard, as `AddShardSlots` builds it. -/
def ErrEmptyShard : Error := Error.New "the shard was empty, please add Shards first"

/-- The error of `getShard` for a cluster whose shard slice is nil. -/
def ErrShardNoExists : Error := Error.NewError "shard" Code.CodeNoExists ""

/-- The two values `UpdateNode` returns for a node that is not there, both
 the spec's ErrNodeNotFound: the variable `metadata.ErrNodeNoExists` when the
 node slice of the shard is nil, and `NewError("node", CodeNoExists, "")` when
 the loop finds no node with the ID. -/
def updateNotFound (shard : Shard) : Error :=
  if shard.Nodes = none then Error.ErrNodeNoExists else ErrNodeNotFound

/-- The shard integrity predicate: pairwise distinct addresses, no node or
 exactly one Master, and a Master present whenever the shard owns a slot
 range. -/
def Integrity (shard : Shard) : Prop :=
  DistinctAddresses shard ∧ OneMaster shard ∧
    (shard.SlotRanges ≠ [] → ∃ n ∈ elems shard.Nodes, n.IsMaster = true)

/-- A store whose cluster c of namespace a holds one shard, which owns a
 slot range and has no node, at version 1. -/
def slotsOnlyStore : Store :=
  { clusters := [(("a", "c"), { Version := 1, Shards := some [slotsOnly] })], events := [] }

/-- A store whose cluster c of namespace a holds one shard without nodes
 or slot ranges, at the largest version an `int64` holds, 2^63 - 1. -/
def maxVersionStore : Store :=
  { clusters := [(("a", "c"), { Version := 9223372036854775807, Shards := some [emptyShard] })],
    events := [] }

/-- A store whose cluster c of namespace a holds one shard without nodes
 or slot ranges, at version 1. -/
def emptyShardStore : Store :=
  { clusters := [(("a", "c"), { Version := 1, Shards := some [emptyShard] })], events := [] }

/-! ## Facts about slices and the local view -/

theorem len_eq_length {α : Type} (s : Option (List α)) : len s = (elems s).length := by
  cases s <;> rfl

theorem elems_some {α : Type} (l : List α) : elems (some l) = l := rfl

theorem len_some {α : Type} (l : List α) : len (some l) = l.length := rfl

theorem shardAt_eq (topo : Cluster) (shardIdx : Int) (h0 : 0 ≤ shardIdx) :
    shardAt topo shardIdx = (elems topo.Shards)[shardIdx.toNat]? := by
  unfold shardAt
  rw [if_neg (by omega)]

theorem inRange_toNat {α : Type} (s : Option (List α)) (shardIdx : Int)
    (h : 0 ≤ shardIdx ∧ shardIdx < (len s : Int)) : shardIdx.toNat < (elems s).length := by
  rw [← len_eq_length]; omega

theorem setNodes_eq (topo : Cluster) (shardIdx : Int) (shard : Shard)
    (nodes : Option (List NodeInfo)) (h0 : 0 ≤ shardIdx)
    (hs : (elems topo.Shards)[shardIdx.toNat]? = some shard) :
    setNodes topo shardIdx nodes =
      some { topo with
        Shards := some ((elems topo.Shards).set shardIdx.toNat { shard with Nodes := nodes }) } := by
  have hlt : shardIdx.toNat < len topo.Shards := by
    rw [len_eq_length]
    exact (List.getElem?_eq_some_iff.mp hs).1
  unfold setNodes
  rw [shardAt_eq topo shardIdx h0, hs]
  simp [assign, hlt]

/-- Closed form of `CreateNode` for a leader, an existing cluster and an
 in-range shard index. -/
theorem CreateNode_eq (env : Env) (stor : Store) (ns cluster : String) (shardIdx : Int)
    (node : NodeInfo) (topo : Cluster) (shard : Shard)
    (hl : env.leader = true) (hg : GetClusterCopy stor ns cluster = Except.ok topo)
    (hin : 0 ≤ shardIdx ∧ shardIdx < (len topo.Shards : Int))
    (hs : (elems topo.Shards)[shardIdx.toNat]? = some shard) :
    CreateNode env stor ns cluster shardIdx node =
      if (elems shard.Nodes).any (fun existedNode => existedNode.Address = node.Address) then
        (stor, Ret.err (Error.NewError "existedNode" Code.CodeExisted ""))
      else if len shard.Nodes = 0 ∧ node.IsMaster = false then
        (stor, Ret.err (Error.New "you MUST add master node first"))
      else if len shard.Nodes ≠ 0 ∧ node.IsMaster = true then
        (stor, Ret.err (Error.New "the master node has already added in this shard"))
      else
        commit env stor ns cluster
          (withShard topo shardIdx { shard with Nodes := some (elems shard.Nodes ++ [node]) })
          { Namespace := ns, Cluster := cluster, Shard := shardIdx, NodeID := node.ID,
            Type_ := EventType.EventNode, Command := Command.CommandCreate } := by
  have hs1 : shardAt topo shardIdx = some shard := by rw [shardAt_eq _ _ hin.1, hs]
  have hs2 : shardAt { topo with Version := wrapInt64 (topo.Version + 1) } shardIdx = some shard := hs1
  have hr : ¬ (shardIdx ≥ (len topo.Shards : Int) ∨ shardIdx < 0) := by omega
  have hset := setNodes_eq { topo with Version := wrapInt64 (topo.Version + 1) } shardIdx shard
    (append shard.Nodes node) hin.1 hs
  unfold CreateNode
  simp only [hl, hg, hs1, hs2, hset, if_neg hr]
  cases hn : shard.Nodes <;> cases hc : env.commitErr <;>
    simp [elems, len, append, updateCluster, EmitEvent, withShard, commit, hc, hn]

theorem nodeIndex_none (nodeID : String) (nodes : List NodeInfo) :
    nodeIndex nodeID nodes = none ↔ ∀ n ∈ nodes, n.ID ≠ nodeID := by
  induction nodes with
  | nil => simp [nodeIndex]
  | cons a rest ih =>
    unfold nodeIndex
    by_cases h : a.ID = nodeID
    · simp [h]
    · cases hr : nodeIndex nodeID rest with
      | none => simpa [h, hr] using ih.mp hr
      | some idx =>
        simp only [h, if_false, List.mem_cons, forall_eq_or_imp]
        constructor
        · intro hc; cases hc
        · intro hall
          have := ih.mpr hall.2
          rw [hr] at this
          cases this

theorem nodeIndex_some (nodeID : String) (nodes : List NodeInfo) (idx : Nat)
    (h : nodeIndex nodeID nodes = some idx) :
    ∃ node, nodes[idx]? = some node ∧ node.ID = nodeID ∧
      ∀ j, j < idx → ∀ n, nodes[j]? = some n → n.ID ≠ nodeID := by
  induction nodes generalizing idx with
  | nil => simp [nodeIndex] at h
  | cons a rest ih =>
    unfold nodeIndex at h
    by_cases ha : a.ID = nodeID
    · simp only [ha, if_true, Option.some.injEq] at h
      subst h
      exact ⟨a, by simp, ha, by intro j hj; omega⟩
    · simp only [ha, if_false] at h
      cases hr : nodeIndex nodeID rest with
      | none => simp [hr] at h
      | some i =>
        simp only [hr, Option.some.injEq] at h
        subst h
        obtain ⟨node, h1, h2, h3⟩ := ih i hr
        refine ⟨node, by simpa using h1, h2, ?_⟩
        intro j hj n hn
        cases j with
        | zero => simp at hn; subst hn; exact ha
        | succ k => exact h3 k (by omega) n (by simpa using hn)

theorem removeCheck_some (shard : Shard) (node : NodeInfo) (err : Error)
    (h : removeCheck shard node = some err) :
    err = Error.New "still some slots in this shard, please migrate them first" ∨
      err = Error.New "please remove slave Shards first" := by
  unfold removeCheck at h
  split at h <;> split at h <;> simp at h
  · exact Or.inl h.symm
  · exact Or.inr h.symm

/-- Closed form of `RemoveNode` when no node of the shard has the ID. -/
theorem RemoveNode_absent (env : Env) (stor : Store) (ns cluster : String) (shardIdx : Int)
    (nodeID : String) (topo : Cluster) (shard : Shard)
    (hl : env.leader = true) (hg : GetClusterCopy stor ns cluster = Except.ok topo)
    (hin : 0 ≤ shardIdx ∧ shardIdx < (len topo.Shards : Int))
    (hs : (elems topo.Shards)[shardIdx.toNat]? = some shard)
    (hi : nodeIndex nodeID (elems shard.Nodes) = none) :
    RemoveNode env stor ns cluster shardIdx nodeID =
      (stor, Ret.err (Error.NewError "node" Code.CodeNoExists "")) := by
  have hs1 : shardAt topo shardIdx = some shard := by rw [shardAt_eq _ _ hin.1, hs]
  have hr : ¬ (shardIdx ≥ (len topo.Shards : Int) ∨ shardIdx < 0) := by omega
  unfold RemoveNode
  simp only [hl, hg, hs1, if_neg hr, hi]
  simp

/-- Closed form of `RemoveNode` when the first node with the ID is `node`,
 at position `nodeIdx`. -/
theorem RemoveNode_found (env : Env) (stor : Store) (ns cluster : String) (shardIdx : Int)
    (nodeID : String) (topo : Cluster) (shard : Shard) (nodeIdx : Nat) (node : NodeInfo)
    (hl : env.leader = true) (hg : GetClusterCopy stor ns cluster = Except.ok topo)
    (hin : 0 ≤ shardIdx ∧ shardIdx < (len topo.Shards : Int))
    (hs : (elems topo.Shards)[shardIdx.toNat]? = some shard)
    (hi : nodeIndex nodeID (elems shard.Nodes) = some nodeIdx)
    (hn : (elems shard.Nodes)[nodeIdx]? = some node) :
    RemoveNode env stor ns cluster shardIdx nodeID =
      match removeCheck shard node with
      | some err => (stor, Ret.err err)
      | none =>
        commit env stor ns cluster
          (withShard topo shardIdx { shard with
            Nodes := some ((elems shard.Nodes).take nodeIdx ++
              (elems shard.Nodes).drop (nodeIdx + 1)) })
          { Namespace := ns, Cluster := cluster, Shard := shardIdx, NodeID := node.ID,
            Type_ := EventType.EventNode, Command := Command.CommandRemove } := by
  have hs1 : shardAt topo shardIdx = some shard := by rw [shardAt_eq _ _ hin.1, hs]
  have hs2 : shardAt { topo with Version := wrapInt64 (topo.Version + 1) } shardIdx = some shard := hs1
  have hr : ¬ (shardIdx ≥ (len topo.Shards : Int) ∨ shardIdx < 0) := by omega
  have hlt : nodeIdx < len shard.Nodes := by
    rw [len_eq_length]
    exact (List.getElem?_eq_some_iff.mp hn).1
  have hnn : ¬ shard.Nodes = none := by
    intro hnil
    rw [hnil] at hi
    simp [elems, nodeIndex] at hi
  unfold RemoveNode
  simp only [hl, hg, hs1, hs2, if_neg hr, hi, hn, if_neg hnn]
  cases hc : removeCheck shard node with
  | some err => simp
  | none =>
    have hset := fun nodes => setNodes_eq { topo with Version := wrapInt64 (topo.Version + 1) } shardIdx
      shard nodes hin.1 hs
    cases hce : env.commitErr <;>
      simp [splice, hlt, hset, updateCluster, EmitEvent, withShard, commit, hce]

/-- Closed form of `UpdateNode` for a leader, an existing cluster and an
 in-range shard index. -/
theorem UpdateNode_eq (env : Env) (stor : Store) (ns cluster : String) (shardIdx : Int)
    (node : NodeInfo) (topo : Cluster) (shard : Shard)
    (hl : env.leader = true) (hg : GetClusterCopy stor ns cluster = Except.ok topo)
    (hin : 0 ≤ shardIdx ∧ shardIdx < (len topo.Shards : Int))
    (hs : (elems topo.Shards)[shardIdx.toNat]? = some shard) :
    UpdateNode env stor ns cluster shardIdx node =
      if shard.Nodes = none then (stor, Ret.err Error.ErrNodeNoExists) else
      match nodeIndex node.ID (elems shard.Nodes) with
      | none => (stor, Ret.err (Error.NewError "node" Code.CodeNoExists ""))
      | some idx =>
        commit env stor ns cluster
          (withShard topo shardIdx { shard with Nodes := some ((elems shard.Nodes).set idx node) })
          { Namespace := ns, Cluster := cluster, Shard := shardIdx, NodeID := node.ID,
            Type_ := EventType.EventNode, Command := Command.CommandUpdate } := by
  have hs1 : shardAt topo shardIdx = some shard := by rw [shardAt_eq _ _ hin.1, hs]
  have hs2 : shardAt { topo with Version := wrapInt64 (topo.Version + 1) } shardIdx = some shard := hs1
  have hr : ¬ (shardIdx ≥ (len topo.Shards : Int) ∨ shardIdx < 0) := by omega
  unfold UpdateNode
  simp only [hl, hg, hs1, hs2, if_neg hr]
  by_cases hnil : shard.Nodes = none
  · simp [hnil]
  · cases hi : nodeIndex node.ID (elems shard.Nodes) with
    | none => simp [hnil]
    | some idx =>
      obtain ⟨n, hn, -, -⟩ := nodeIndex_some _ _ _ hi
      have hlt : idx < len shard.Nodes := by
        rw [len_eq_length]
        exact (List.getElem?_eq_some_iff.mp hn).1
      have hset := fun nodes => setNodes_eq { topo with Version := wrapInt64 (topo.Version + 1) } shardIdx
        shard nodes hin.1 hs
      cases hce : env.commitErr <;>
        simp [hnil, assign, hlt, hset, updateCluster, EmitEvent, withShard, commit, hce]

/-- Closed form of `CreateShard` for a leader and an existing cluster. -/
theorem CreateShard_eq (env : Env) (stor : Store) (ns cluster : String) (shard : Shard)
    (topo : Cluster)
    (hl : env.leader = true) (hg : GetClusterCopy stor ns cluster = Except.ok topo) :
    CreateShard env stor ns cluster shard =
      commit env stor ns cluster
        { Version := wrapInt64 (topo.Version + 1), Shards := some (elems topo.Shards ++ [shard]) }
        { Namespace := ns, Cluster := cluster, Shard := (len topo.Shards : Int), NodeID := "",
          Type_ := EventType.EventShard, Command := Command.CommandCreate } := by
  unfold CreateShard
  simp only [hl, hg]
  cases hce : env.commitErr <;>
    simp [append, len, updateCluster, EmitEvent, commit, hce, ← len_eq_length]

/-- Closed form of `RemoveShard` for a leader, an existing cluster and an
 in-range shard index. -/
theorem RemoveShard_eq (env : Env) (stor : Store) (ns cluster : String) (shardIdx : Int)
    (topo : Cluster) (shard : Shard)
    (hl : env.leader = true) (hg : GetClusterCopy stor ns cluster = Except.ok topo)
    (hin : 0 ≤ shardIdx ∧ shardIdx < (len topo.Shards : Int))
    (hs : (elems topo.Shards)[shardIdx.toNat]? = some shard) :
    RemoveShard env stor ns cluster shardIdx =
      if shard.SlotRanges.length > 0 then
        (stor, Ret.err (Error.New "need to delete all slots before removing shard"))
      else
        commit env stor ns cluster
          { Version := wrapInt64 (topo.Version + 1),
            Shards := some ((elems topo.Shards).take shardIdx.toNat ++
              (elems topo.Shards).drop (shardIdx.toNat + 1)) }
          { Namespace := ns, Cluster := cluster, Shard := shardIdx, NodeID := "",
            Type_ := EventType.EventShard, Command := Command.CommandRemove } := by
  have hs1 : shardAt topo shardIdx = some shard := by rw [shardAt_eq _ _ hin.1, hs]
  have hr : ¬ (shardIdx ≥ (len topo.Shards : Int) ∨ shardIdx < 0) := by omega
  have hlt : shardIdx.toNat < len topo.Shards := by omega
  unfold RemoveShard
  simp only [hl, hg, hs1, if_neg hr]
  cases hce : env.commitErr <;>
    simp [splice, hlt, updateCluster, EmitEvent, commit, hce]

theorem getShard_eq (stor : Store) (ns cluster : String) (shardIdx : Int)
    (topo : Cluster) (shard : Shard)
    (hg : GetClusterCopy stor ns cluster = Except.ok topo)
    (hin : 0 ≤ shardIdx ∧ shardIdx < (len topo.Shards : Int))
    (hs : (elems topo.Shards)[shardIdx.toNat]? = some shard) :
    getShard stor ns cluster shardIdx = Ret.ok shard := by
  have hs1 : shardAt topo shardIdx = some shard := by rw [shardAt_eq _ _ hin.1, hs]
  have hr : ¬ (shardIdx ≥ (len topo.Shards : Int) ∨ shardIdx < 0) := by omega
  have hnn : ¬ topo.Shards = none := by
    intro hnil
    rw [hnil] at hin
    simp [len] at hin
    omega
  unfold getShard
  simp only [hg, hs1, if_neg hr, if_neg hnn]

theorem setSlotRanges_eq (topo : Cluster) (shardIdx : Int) (shard : Shard)
    (slotRanges : List SlotRange) (h0 : 0 ≤ shardIdx)
    (hs : (elems topo.Shards)[shardIdx.toNat]? = some shard) :
    setSlotRanges topo shardIdx slotRanges =
      some { topo with
        Shards := some ((elems topo.Shards).set shardIdx.toNat
          { shard with SlotRanges := slotRanges }) } := by
  have hlt : shardIdx.toNat < len topo.Shards := by
    rw [len_eq_length]
    exact (List.getElem?_eq_some_iff.mp hs).1
  unfold setSlotRanges
  rw [shardAt_eq topo shardIdx h0, hs]
  simp [assign, hlt]

/-- Closed form of `AddShardSlots` for a leader, an existing cluster and an
 in-range shard index. -/
theorem AddShardSlots_eq (m : SlotArith) (env : Env) (stor : Store) (ns cluster : String)
    (shardIdx : Int) (slotRanges : List SlotRange) (topo : Cluster) (shard : Shard)
    (hl : env.leader = true) (hg : GetClusterCopy stor ns cluster = Except.ok topo)
    (hin : 0 ≤ shardIdx ∧ shardIdx < (len topo.Shards : Int))
    (hs : (elems topo.Shards)[shardIdx.toNat]? = some shard) :
    AddShardSlots m env stor ns cluster shardIdx slotRanges =
      if len shard.Nodes = 0 then
        (stor, Ret.err (Error.New "the shard was empty, please add Shards first"))
      else
        commit env stor ns cluster
          (withShard topo shardIdx
            { shard with SlotRanges := m.MergeSlotRanges shard.SlotRanges slotRanges })
          { Namespace := ns, Cluster := cluster, Shard := shardIdx, NodeID := "",
            Type_ := EventType.EventShard, Command := Command.CommandAddSlots } := by
  have hget := getShard_eq stor ns cluster shardIdx topo shard hg hin hs
  have hset := fun ranges => setSlotRanges_eq { topo with Version := wrapInt64 (topo.Version + 1) }
    shardIdx shard ranges hin.1 hs
  unfold AddShardSlots
  simp only [hl, hg, hget]
  cases hce : env.commitErr <;>
    simp [hset, updateCluster, EmitEvent, withShard, commit, hce]

/-- Closed form of `RemoveShardSlots` for a leader, an existing cluster and
 an in-range shard index. -/
theorem RemoveShardSlots_eq (m : SlotArith) (env : Env) (stor : Store) (ns cluster : String)
    (shardIdx : Int) (slotRanges : List SlotRange) (topo : Cluster) (shard : Shard)
    (hl : env.leader = true) (hg : GetClusterCopy stor ns cluster = Except.ok topo)
    (hin : 0 ≤ shardIdx ∧ shardIdx < (len topo.Shards : Int))
    (hs : (elems topo.Shards)[shardIdx.toNat]? = some shard) :
    RemoveShardSlots m env stor ns cluster shardIdx slotRanges =
      commit env stor ns cluster
        (withShard topo shardIdx
          { shard with SlotRanges := m.RemoveSlotRanges shard.SlotRanges slotRanges })
        { Namespace := ns, Cluster := cluster, Shard := shardIdx, NodeID := "",
          Type_ := EventType.EventShard, Command := Command.CommandRemoveSlots } := by
  have hget := getShard_eq stor ns cluster shardIdx topo shard hg hin hs
  have hset := fun ranges => setSlotRanges_eq { topo with Version := wrapInt64 (topo.Version + 1) }
    shardIdx shard ranges hin.1 hs
  unfold RemoveShardSlots
  simp only [hl, hg, hget]
  cases hce : env.commitErr <;>
    simp [hset, updateCluster, EmitEvent, withShard, commit, hce]

/-! ## Rejection rules of CreateNode and RemoveNode -/

/-- C1: for a leader, an existing cluster and an in-range shard index,
 `CreateNode` applies its rejection rules in order: a node of the shard with
 the same address gives ErrNodeAlreadyExists (also for a Master offered to a
 non-empty shard); otherwise an empty shard and a non-Master node give
 ErrMasterRequiredFirst; otherwise a non-empty shard and a Master give
 ErrMasterAlreadyPresent; in every remaining case, the commit succeeding, the
 call succeeds. -/
theorem C1_CreateNode_rejection_order (env : Env) (stor : Store) (ns cluster : String)
    (shardIdx : Int) (node : NodeInfo) (topo : Cluster) (shard : Shard)
    (hl : env.leader = true) (hg : GetClusterCopy stor ns cluster = Except.ok topo)
    (hin : 0 ≤ shardIdx ∧ shardIdx < (len topo.Shards : Int))
    (hs : (elems topo.Shards)[shardIdx.toNat]? = some shard) :
    ((∃ n ∈ elems shard.Nodes, n.Address = node.Address) →
      (CreateNode env stor ns cluster shardIdx node).2 = Ret.err ErrNodeAlreadyExists) ∧
    ((∀ n ∈ elems shard.Nodes, n.Address ≠ node.Address) →
      len shard.Nodes = 0 → node.Role ≠ Role.Master →
      (CreateNode env stor ns cluster shardIdx node).2 = Ret.err ErrMasterRequiredFirst) ∧
    ((∀ n ∈ elems shard.Nodes, n.Address ≠ node.Address) →
      1 ≤ len shard.Nodes → node.Role = Role.Master →
      (CreateNode env stor ns cluster shardIdx node).2 = Ret.err ErrMasterAlreadyPresent) ∧
    ((∀ n ∈ elems shard.Nodes, n.Address ≠ node.Address) →
      (len shard.Nodes = 0 → node.Role = Role.Master) →
      (1 ≤ len shard.Nodes → node.Role ≠ Role.Master) →
      env.commitErr = none →
      (CreateNode env stor ns cluster shardIdx node).2 = Ret.ok ()) := by
  rw [CreateNode_eq env stor ns cluster shardIdx node topo shard hl hg hin hs]
  refine ⟨?_, ?_, ?_, ?_⟩
  · rintro ⟨n, hn, ha⟩
    have hany : (elems shard.Nodes).any
        (fun existedNode => existedNode.Address = node.Address) = true := by
      simp only [List.any_eq_true, decide_eq_true_eq]
      exact ⟨n, hn, ha⟩
    simp [hany, ErrNodeAlreadyExists]
  · intro hd h0 hrole
    have hany : ¬ (elems shard.Nodes).any
        (fun existedNode => existedNode.Address = node.Address) = true := by
      simp only [List.any_eq_true, decide_eq_true_eq, not_exists, not_and]
      exact hd
    have hm : node.IsMaster = false := by simp [NodeInfo.IsMaster, hrole]
    simp [hany, h0, hm, ErrMasterRequiredFirst]
  · intro hd h1 hrole
    have hany : ¬ (elems shard.Nodes).any
        (fun existedNode => existedNode.Address = node.Address) = true := by
      simp only [List.any_eq_true, decide_eq_true_eq, not_exists, not_and]
      exact hd
    have hm : node.IsMaster = true := by simp [NodeInfo.IsMaster, hrole]
    have h0 : ¬ len shard.Nodes = 0 := by omega
    simp [hany, h0, hm, ErrMasterAlreadyPresent]
  · intro hd hfirst hrest hce
    have hany : ¬ (elems shard.Nodes).any
        (fun existedNode => existedNode.Address = node.Address) = true := by
      simp only [List.any_eq_true, decide_eq_true_eq, not_exists, not_and]
      exact hd
    have h1 : ¬ (len shard.Nodes = 0 ∧ node.IsMaster = false) := by
      rintro ⟨h0, hm⟩
      have := hfirst h0
      simp [NodeInfo.IsMaster, this] at hm
    have h2 : ¬ (len shard.Nodes ≠ 0 ∧ node.IsMaster = true) := by
      rintro ⟨h0, hm⟩
      have := hrest (by omega)
      simp [NodeInfo.IsMaster, this] at hm
    rw [if_neg hany, if_neg h1, if_neg h2]
    simp [commit, hce]

/-- C1 at the sample store: a Master whose address is already in the
 non-empty shard is rejected as ErrNodeAlreadyExists. -/
theorem C1_CreateNode_rejection_order_witness :
    (CreateNode leaderEnv sampleStore "a" "c" 0
      { ID := "n9", Address := "h2:1", Role := Role.Master }).2 =
      Ret.err ErrNodeAlreadyExists :=
  (C1_CreateNode_rejection_order leaderEnv sampleStore "a" "c" 0
    { ID := "n9", Address := "h2:1", Role := Role.Master } sampleCluster sampleShard
    (by decide) (by rfl) (by decide) (by decide)).1 ⟨sampleReplica, by decide, by decide⟩

/-- C2: for a leader, an existing cluster and an in-range shard index,
 `RemoveNode` fails with ErrNodeNotFound exactly when no node of the shard
 has the ID; when the first node with the ID is found, a shard that owns
 slot ranges gives ErrSlotsPresentMigrateFirst exactly when the node is the
 only node or the Master, a shard without slot ranges gives
 ErrRemoveReplicasFirst exactly when the node is the Master and the shard has
 more than one node, and in every remaining case, the commit succeeding, the
 call succeeds. -/
theorem C2_RemoveNode_rejections (env : Env) (stor : Store) (ns cluster : String)
    (shardIdx : Int) (nodeID : String) (topo : Cluster) (shard : Shard)
    (hl : env.leader = true) (hg : GetClusterCopy stor ns cluster = Except.ok topo)
    (hin : 0 ≤ shardIdx ∧ shardIdx < (len topo.Shards : Int))
    (hs : (elems topo.Shards)[shardIdx.toNat]? = some shard) :
    ((RemoveNode env stor ns cluster shardIdx nodeID).2 = Ret.err ErrNodeNotFound ↔
      ∀ n ∈ elems shard.Nodes, n.ID ≠ nodeID) ∧
    (∀ nodeIdx node, nodeIndex nodeID (elems shard.Nodes) = some nodeIdx →
      (elems shard.Nodes)[nodeIdx]? = some node →
      (shard.SlotRanges ≠ [] →
        ((RemoveNode env stor ns cluster shardIdx nodeID).2 =
            Ret.err ErrSlotsPresentMigrateFirst ↔
          len shard.Nodes = 1 ∨ node.Role = Role.Master)) ∧
      (shard.SlotRanges = [] →
        ((RemoveNode env stor ns cluster shardIdx nodeID).2 =
            Ret.err ErrRemoveReplicasFirst ↔
          node.Role = Role.Master ∧ 1 < len shard.Nodes)) ∧
      ((shard.SlotRanges ≠ [] → ¬ (len shard.Nodes = 1 ∨ node.Role = Role.Master)) →
        (shard.SlotRanges = [] → ¬ (node.Role = Role.Master ∧ 1 < len shard.Nodes)) →
        env.commitErr = none →
        (RemoveNode env stor ns cluster shardIdx nodeID).2 = Ret.ok ())) := by
  constructor
  · cases hi : nodeIndex nodeID (elems shard.Nodes) with
    | none =>
      rw [RemoveNode_absent env stor ns cluster shardIdx nodeID topo shard hl hg hin hs hi]
      simp only [ErrNodeNotFound, true_iff]
      exact (nodeIndex_none _ _).mp hi
    | some nodeIdx =>
      obtain ⟨node, hn, hid, -⟩ := nodeIndex_some _ _ _ hi
      rw [RemoveNode_found env stor ns cluster shardIdx nodeID topo shard nodeIdx node
        hl hg hin hs hi hn]
      have hmem : node ∈ elems shard.Nodes := List.getElem?_mem hn
      constructor
      · intro hr
        exfalso
        cases hc : removeCheck shard node with
        | some err =>
          rw [hc] at hr
          rcases removeCheck_some shard node err hc with h | h <;>
            simp [h, ErrNodeNotFound] at hr
        | none =>
          rw [hc] at hr
          cases hce : env.commitErr <;> simp [commit, hce, ErrNodeNotFound] at hr
      · intro hall
        exact absurd hid (hall node hmem)
  · intro nodeIdx node hi hn
    rw [RemoveNode_found env stor ns cluster shardIdx nodeID topo shard nodeIdx node
      hl hg hin hs hi hn]
    have hlen : ∀ l : List SlotRange, l.length ≠ 0 ↔ l ≠ [] := by
      intro l; cases l <;> simp
    refine ⟨?_, ?_, ?_⟩
    · intro hne
      have h1 : shard.SlotRanges.length ≠ 0 := (hlen _).mpr hne
      unfold removeCheck commit ErrSlotsPresentMigrateFirst
      rw [if_pos h1]
      by_cases hc : len shard.Nodes = 1 ∨ node.IsMaster = true
      · rw [if_pos hc]
        simpa [NodeInfo.IsMaster] using hc
      · rw [if_neg hc]
        have hc2 : ¬ (len shard.Nodes = 1 ∨ node.Role = Role.Master) := by
          simpa [NodeInfo.IsMaster] using hc
        cases hce : env.commitErr <;> simp [hc2]
    · intro he
      have h1 : ¬ shard.SlotRanges.length ≠ 0 := by simp [he]
      unfold removeCheck commit ErrRemoveReplicasFirst
      rw [if_neg h1]
      by_cases hc : node.IsMaster = true ∧ len shard.Nodes > 1
      · rw [if_pos hc]
        simpa [NodeInfo.IsMaster] using hc
      · rw [if_neg hc]
        have hc2 : ¬ (node.Role = Role.Master ∧ 1 < len shard.Nodes) := by
          simpa [NodeInfo.IsMaster] using hc
        cases hce : env.commitErr <;> simp [hc2]
    · intro hA hB hce
      have hcheck : removeCheck shard node = none := by
        unfold removeCheck
        by_cases h1 : shard.SlotRanges.length ≠ 0
        · have := hA ((hlen _).mp h1)
          rw [if_pos h1, if_neg (by simpa [NodeInfo.IsMaster] using this)]
        · have hnil : shard.SlotRanges = [] := by
            by_contra hne
            exact h1 ((hlen _).mpr hne)
          have := hB hnil
          rw [if_neg h1, if_neg (by simpa [NodeInfo.IsMaster] using this)]
      simp [hcheck, commit, hce]

/-- C2 at the sample store: the shard owns a slot range, so removing the
 Master n1 is rejected as ErrSlotsPresentMigrateFirst. -/
theorem C2_RemoveNode_rejections_witness :
    (RemoveNode leaderEnv sampleStore "a" "c" 0 "n1").2 =
      Ret.err ErrSlotsPresentMigrateFirst :=
  ((C2_RemoveNode_rejections leaderEnv sampleStore "a" "c" 0 "n1" sampleCluster sampleShard
    (by decide) (by rfl) (by decide) (by decide)).2 0 sampleMaster
    (by decide) (by decide)).1 (by decide) |>.mpr (Or.inr (by decide))

/-! ## The local view -/

theorem lookup_replace (ns cluster ns2 cluster2 : String) (topo : Cluster)
    (l : List ((String × String) × Cluster)) :
    lookup ns cluster (replace ns2 cluster2 topo l) =
      if (ns2, cluster2) = (ns, cluster) then
        (match lookup ns cluster l with
          | none => none
          | some _ => some topo)
      else lookup ns cluster l := by
  induction l with
  | nil => simp [lookup, replace]
  | cons a rest ih =>
    obtain ⟨k, c⟩ := a
    unfold replace
    by_cases hk2 : k = (ns2, cluster2)
    · by_cases hk : (ns2, cluster2) = (ns, cluster)
      · simp [lookup, hk2, hk]
      · simp [lookup, hk2, hk]
    · rw [if_neg hk2]
      unfold lookup
      by_cases hk : k = (ns, cluster)
      · have hne : ¬ (ns2, cluster2) = (ns, cluster) := by
          intro h; exact hk2 (hk.trans h.symm)
        simp [hk, hne]
      · simp only [hk, if_false]
        exact ih

theorem GetClusterCopy_commit_same (stor : Store) (ns cluster : String) (topo new : Cluster)
    (events : List Event) (hg : GetClusterCopy stor ns cluster = Except.ok topo) :
    GetClusterCopy { clusters := replace ns cluster new stor.clusters, events := events }
      ns cluster = Except.ok new := by
  unfold GetClusterCopy at hg ⊢
  simp only [lookup_replace]
  cases hl : lookup ns cluster stor.clusters with
  | none => simp [hl] at hg
  | some t => simp

theorem GetClusterCopy_commit_other (stor : Store) (ns cluster ns2 cluster2 : String)
    (new : Cluster) (events : List Event) (hne : (ns2, cluster2) ≠ (ns, cluster)) :
    GetClusterCopy { clusters := replace ns2 cluster2 new stor.clusters, events := events }
      ns cluster = GetClusterCopy stor ns cluster := by
  unfold GetClusterCopy
  simp only [lookup_replace, if_neg hne]

/-! ## Every mutator either commits an effect or leaves the store alone -/

theorem commit_view (m : SlotArith) (env : Env) (stor : Store) (call : Call)
    (topo topo2 : Cluster) (ev : Event)
    (hg : GetClusterCopy stor call.target.1 call.target.2 = Except.ok topo)
    (hl : env.leader = true) (he : Effect m topo call topo2 ev) :
    View m env stor call (commit env stor call.target.1 call.target.2 topo2 ev) := by
  unfold commit
  cases hce : env.commitErr with
  | some cause => exact Or.inr ⟨rfl, by simp⟩
  | none => exact Or.inl ⟨topo, topo2, ev, hg, he, hl, hce, rfl⟩

theorem exists_shard (topo : Cluster) (shardIdx : Int)
    (hin : 0 ≤ shardIdx ∧ shardIdx < (len topo.Shards : Int)) :
    ∃ shard, (elems topo.Shards)[shardIdx.toNat]? = some shard := by
  have hlt := inRange_toNat topo.Shards shardIdx hin
  exact ⟨(elems topo.Shards)[shardIdx.toNat], List.getElem?_eq_getElem hlt⟩

theorem CreateNode_view (m : SlotArith) (env : Env) (stor : Store) (ns cluster : String)
    (shardIdx : Int) (node : NodeInfo) :
    View m env stor (Call.CreateNode ns cluster shardIdx node)
      (CreateNode env stor ns cluster shardIdx node) := by
  by_cases hl : env.leader = true
  swap
  · exact Or.inr (by simp [CreateNode, hl])
  cases hg : GetClusterCopy stor ns cluster with
  | error e => exact Or.inr (by simp [CreateNode, hl, hg])
  | ok topo =>
    by_cases hin : 0 ≤ shardIdx ∧ shardIdx < (len topo.Shards : Int)
    swap
    · have hr : shardIdx ≥ (len topo.Shards : Int) ∨ shardIdx < 0 := by omega
      exact Or.inr (by simp [CreateNode, hl, hg, hr])
    obtain ⟨shard, hs⟩ := exists_shard topo shardIdx hin
    rw [CreateNode_eq env stor ns cluster shardIdx node topo shard hl hg hin hs]
    split_ifs with h1 h2 h3
    · exact Or.inr (by simp)
    · exact Or.inr (by simp)
    · exact Or.inr (by simp)
    · refine commit_view m env stor (Call.CreateNode ns cluster shardIdx node) topo _ _ hg hl
        (Effect.onShard _ shardIdx shard _ _ hin hs (ShardStep.createNode ns cluster node ?_ ?_ ?_))
      · intro n hn ha
        apply h1
        simp only [List.any_eq_true, decide_eq_true_eq]
        exact ⟨n, hn, ha⟩
      · intro h0
        by_contra hm
        exact h2 ⟨h0, by simpa using hm⟩
      · intro h0
        by_contra hm
        exact h3 ⟨h0, by simpa using hm⟩

theorem RemoveNode_view (m : SlotArith) (env : Env) (stor : Store) (ns cluster : String)
    (shardIdx : Int) (nodeID : String) :
    View m env stor (Call.RemoveNode ns cluster shardIdx nodeID)
      (RemoveNode env stor ns cluster shardIdx nodeID) := by
  by_cases hl : env.leader = true
  swap
  · exact Or.inr (by simp [RemoveNode, hl])
  cases hg : GetClusterCopy stor ns cluster with
  | error e => exact Or.inr (by simp [RemoveNode, hl, hg])
  | ok topo =>
    by_cases hin : 0 ≤ shardIdx ∧ shardIdx < (len topo.Shards : Int)
    swap
    · have hr : shardIdx ≥ (len topo.Shards : Int) ∨ shardIdx < 0 := by omega
      exact Or.inr (by simp [RemoveNode, hl, hg, hr])
    obtain ⟨shard, hs⟩ := exists_shard topo shardIdx hin
    cases hi : nodeIndex nodeID (elems shard.Nodes) with
    | none =>
      rw [RemoveNode_absent env stor ns cluster shardIdx nodeID topo shard hl hg hin hs hi]
      exact Or.inr (by simp)
    | some nodeIdx =>
      obtain ⟨node, hn, -, -⟩ := nodeIndex_some _ _ _ hi
      rw [RemoveNode_found env stor ns cluster shardIdx nodeID topo shard nodeIdx node
        hl hg hin hs hi hn]
      cases hc : removeCheck shard node with
      | some err => exact Or.inr (by simp)
      | none =>
        exact commit_view m env stor (Call.RemoveNode ns cluster shardIdx nodeID) topo _ _ hg hl
          (Effect.onShard _ shardIdx shard _ _ hin hs
            (ShardStep.removeNode ns cluster nodeID nodeIdx node hi hn hc))

theorem UpdateNode_view (m : SlotArith) (env : Env) (stor : Store) (ns cluster : String)
    (shardIdx : Int) (node : NodeInfo) :
    View m env stor (Call.UpdateNode ns cluster shardIdx node)
      (UpdateNode env stor ns cluster shardIdx node) := by
  by_cases hl : env.leader = true
  swap
  · exact Or.inr (by simp [UpdateNode, hl])
  cases hg : GetClusterCopy stor ns cluster with
  | error e => exact Or.inr (by simp [UpdateNode, hl, hg])
  | ok topo =>
    by_cases hin : 0 ≤ shardIdx ∧ shardIdx < (len topo.Shards : Int)
    swap
    · have hr : shardIdx ≥ (len topo.Shards : Int) ∨ shardIdx < 0 := by omega
      exact Or.inr (by simp [UpdateNode, hl, hg, hr])
    obtain ⟨shard, hs⟩ := exists_shard topo shardIdx hin
    rw [UpdateNode_eq env stor ns cluster shardIdx node topo shard hl hg hin hs]
    by_cases hnil : shard.Nodes = none
    · rw [if_pos hnil]
      exact Or.inr (by simp)
    · rw [if_neg hnil]
      cases hi : nodeIndex node.ID (elems shard.Nodes) with
      | none => exact Or.inr (by simp)
      | some idx =>
        exact commit_view m env stor (Call.UpdateNode ns cluster shardIdx node) topo _ _ hg hl
          (Effect.onShard _ shardIdx shard _ _ hin hs (ShardStep.updateNode ns cluster node idx hi))

theorem CreateShard_view (m : SlotArith) (env : Env) (stor : Store) (ns cluster : String)
    (shard : Shard) :
    View m env stor (Call.CreateShard ns cluster shard)
      (CreateShard env stor ns cluster shard) := by
  by_cases hl : env.leader = true
  swap
  · exact Or.inr (by simp [CreateShard, hl])
  cases hg : GetClusterCopy stor ns cluster with
  | error e => exact Or.inr (by simp [CreateShard, hl, hg])
  | ok topo =>
    rw [CreateShard_eq env stor ns cluster shard topo hl hg]
    exact commit_view m env stor (Call.CreateShard ns cluster shard) topo _ _ hg hl
      (Effect.createShard ns cluster shard)

theorem RemoveShard_view (m : SlotArith) (env : Env) (stor : Store) (ns cluster : String)
    (shardIdx : Int) :
    View m env stor (Call.RemoveShard ns cluster shardIdx)
      (RemoveShard env stor ns cluster shardIdx) := by
  by_cases hl : env.leader = true
  swap
  · exact Or.inr (by simp [RemoveShard, hl])
  cases hg : GetClusterCopy stor ns cluster with
  | error e => exact Or.inr (by simp [RemoveShard, hl, hg])
  | ok topo =>
    by_cases hin : 0 ≤ shardIdx ∧ shardIdx < (len topo.Shards : Int)
    swap
    · have hr : shardIdx ≥ (len topo.Shards : Int) ∨ shardIdx < 0 := by omega
      exact Or.inr (by simp [RemoveShard, hl, hg, hr])
    obtain ⟨shard, hs⟩ := exists_shard topo shardIdx hin
    rw [RemoveShard_eq env stor ns cluster shardIdx topo shard hl hg hin hs]
    split_ifs with h1
    · exact Or.inr (by simp)
    · exact commit_view m env stor (Call.RemoveShard ns cluster shardIdx) topo _ _ hg hl
        (Effect.removeShard ns cluster shardIdx shard hin hs h1)

theorem getShard_outOfRange (stor : Store) (ns cluster : String) (shardIdx : Int)
    (topo : Cluster) (hg : GetClusterCopy stor ns cluster = Except.ok topo)
    (hin : ¬ (0 ≤ shardIdx ∧ shardIdx < (len topo.Shards : Int))) :
    ∃ e, getShard stor ns cluster shardIdx = Ret.err e := by
  have hr : shardIdx ≥ (len topo.Shards : Int) ∨ shardIdx < 0 := by omega
  unfold getShard
  simp only [hg]
  by_cases hnil : topo.Shards = none
  · exact ⟨_, by rw [if_pos hnil]⟩
  · exact ⟨_, by rw [if_neg hnil, if_pos hr]⟩

theorem AddShardSlots_view (m : SlotArith) (env : Env) (stor : Store) (ns cluster : String)
    (shardIdx : Int) (slotRanges : List SlotRange) :
    View m env stor (Call.AddShardSlots ns cluster shardIdx slotRanges)
      (AddShardSlots m env stor ns cluster shardIdx slotRanges) := by
  by_cases hl : env.leader = true
  swap
  · exact Or.inr (by simp [AddShardSlots, hl])
  cases hg : GetClusterCopy stor ns cluster with
  | error e => exact Or.inr (by simp [AddShardSlots, hl, hg])
  | ok topo =>
    by_cases hin : 0 ≤ shardIdx ∧ shardIdx < (len topo.Shards : Int)
    swap
    · obtain ⟨e, he⟩ := getShard_outOfRange stor ns cluster shardIdx topo hg hin
      exact Or.inr (by simp [AddShardSlots, hl, hg, he])
    obtain ⟨shard, hs⟩ := exists_shard topo shardIdx hin
    rw [AddShardSlots_eq m env stor ns cluster shardIdx slotRanges topo shard hl hg hin hs]
    split_ifs with h1
    · exact Or.inr (by simp)
    · exact commit_view m env stor (Call.AddShardSlots ns cluster shardIdx slotRanges) topo _ _
        hg hl (Effect.onShard _ shardIdx shard _ _ hin hs
          (ShardStep.addShardSlots ns cluster slotRanges h1))

theorem RemoveShardSlots_view (m : SlotArith) (env : Env) (stor : Store)
    (ns cluster : String) (shardIdx : Int) (slotRanges : List SlotRange) :
    View m env stor (Call.RemoveShardSlots ns cluster shardIdx slotRanges)
      (RemoveShardSlots m env stor ns cluster shardIdx slotRanges) := by
  by_cases hl : env.leader = true
  swap
  · exact Or.inr (by simp [RemoveShardSlots, hl])
  cases hg : GetClusterCopy stor ns cluster with
  | error e => exact Or.inr (by simp [RemoveShardSlots, hl, hg])
  | ok topo =>
    by_cases hin : 0 ≤ shardIdx ∧ shardIdx < (len topo.Shards : Int)
    swap
    · obtain ⟨e, he⟩ := getShard_outOfRange stor ns cluster shardIdx topo hg hin
      exact Or.inr (by simp [RemoveShardSlots, hl, hg, he])
    obtain ⟨shard, hs⟩ := exists_shard topo shardIdx hin
    rw [RemoveShardSlots_eq m env stor ns cluster shardIdx slotRanges topo shard hl hg hin hs]
    exact commit_view m env stor (Call.RemoveShardSlots ns cluster shardIdx slotRanges) topo _ _
      hg hl (Effect.onShard _ shardIdx shard _ _ hin hs
        (ShardStep.removeShardSlots ns cluster slotRanges))

theorem Effect.version {m : SlotArith} {topo topo2 : Cluster} {call : Call} {ev : Event}
    (h : Effect m topo call topo2 ev) : topo2.Version = wrapInt64 (topo.Version + 1) := by
  cases h <;> rfl

theorem Effect.isMutation {m : SlotArith} {topo topo2 : Cluster} {call : Call} {ev : Event}
    (h : Effect m topo call topo2 ev) : call.isMutation = true := by
  cases h with
  | createShard => rfl
  | removeShard => rfl
  | onShard _ _ _ _ _ _ _ hstep => cases hstep <;> rfl

theorem Effect.event_target {m : SlotArith} {topo topo2 : Cluster} {call : Call} {ev : Event}
    (h : Effect m topo call topo2 ev) : (ev.Namespace, ev.Cluster) = call.target := by
  cases h with
  | createShard => rfl
  | removeShard => rfl
  | onShard _ _ _ _ _ _ _ hstep => cases hstep <;> rfl

/-- How a call of a mutator ends, read off `exec`. -/
theorem exec_of_view (m : SlotArith) (env : Env) (stor : Store) (call : Call)
    (out : Store × Ret Unit) (hm : call.isMutation = true)
    (hexec : exec m env stor call = (out.1, out.2.reply (fun _ => Reply.unit)))
    (hv : View m env stor call out) :
    (∃ topo topo2 ev,
        GetClusterCopy stor call.target.1 call.target.2 = Except.ok topo ∧
        Effect m topo call topo2 ev ∧ env.leader = true ∧ env.commitErr = none ∧
        accepted m env stor call = true ∧
        exec m env stor call =
          ({ clusters := replace call.target.1 call.target.2 topo2 stor.clusters,
             events := stor.events ++ [ev] }, Ret.ok Reply.unit)) ∨
      ((exec m env stor call).1 = stor ∧ accepted m env stor call = false ∧
        ∀ r, (exec m env stor call).2 ≠ Ret.ok r) := by
  rcases hv with ⟨topo, topo2, ev, hg, he, hl, hce, hout⟩ | ⟨h1, h2⟩
  · left
    refine ⟨topo, topo2, ev, hg, he, hl, hce, ?_, ?_⟩
    · simp [accepted, hm, hexec, hout, Ret.reply, Ret.isOk]
    · rw [hexec, hout]; rfl
  · right
    rw [hexec]
    refine ⟨h1, ?_, ?_⟩
    · unfold accepted
      rw [hexec]
      cases hr : out.2 with
      | ok val => cases val; exact absurd hr h2
      | err e => simp [Ret.reply, Ret.isOk]
      | panic => simp [Ret.reply, Ret.isOk]
    · intro r
      cases hr : out.2 with
      | ok val => cases val; exact absurd hr h2
      | err e => simp [Ret.reply]
      | panic => simp [Ret.reply]

/-- Every call either is an accepted mutation, which commits its effect on
 the cluster and logs its event, or leaves the store exactly as it was. -/
theorem exec_cases (m : SlotArith) (env : Env) (stor : Store) (call : Call) :
    (∃ topo topo2 ev,
        GetClusterCopy stor call.target.1 call.target.2 = Except.ok topo ∧
        Effect m topo call topo2 ev ∧ env.leader = true ∧ env.commitErr = none ∧
        accepted m env stor call = true ∧
        exec m env stor call =
          ({ clusters := replace call.target.1 call.target.2 topo2 stor.clusters,
             events := stor.events ++ [ev] }, Ret.ok Reply.unit)) ∨
      ((exec m env stor call).1 = stor ∧ accepted m env stor call = false) := by
  have key : ∀ out : Store × Ret Unit, call.isMutation = true →
      exec m env stor call = (out.1, out.2.reply (fun _ => Reply.unit)) →
      View m env stor call out →
      (∃ topo topo2 ev,
        GetClusterCopy stor call.target.1 call.target.2 = Except.ok topo ∧
        Effect m topo call topo2 ev ∧ env.leader = true ∧ env.commitErr = none ∧
        accepted m env stor call = true ∧
        exec m env stor call =
          ({ clusters := replace call.target.1 call.target.2 topo2 stor.clusters,
             events := stor.events ++ [ev] }, Ret.ok Reply.unit)) ∨
      ((exec m env stor call).1 = stor ∧ accepted m env stor call = false) :=
    fun out hm hexec hv =>
      (exec_of_view m env stor call out hm hexec hv).imp id (fun h => ⟨h.1, h.2.1⟩)
  cases call with
  | ListShard ns cluster => exact Or.inr ⟨rfl, rfl⟩
  | GetShard ns cluster idx => exact Or.inr ⟨rfl, rfl⟩
  | ListNodes ns cluster idx => exact Or.inr ⟨rfl, rfl⟩
  | CreateShard ns cluster shard =>
    exact key _ rfl rfl (CreateShard_view m env stor ns cluster shard)
  | RemoveShard ns cluster idx =>
    exact key _ rfl rfl (RemoveShard_view m env stor ns cluster idx)
  | AddShardSlots ns cluster idx r =>
    exact key _ rfl rfl (AddShardSlots_view m env stor ns cluster idx r)
  | RemoveShardSlots ns cluster idx r =>
    exact key _ rfl rfl (RemoveShardSlots_view m env stor ns cluster idx r)
  | CreateNode ns cluster idx node =>
    exact key _ rfl rfl (CreateNode_view m env stor ns cluster idx node)
  | UpdateNode ns cluster idx node =>
    exact key _ rfl rfl (UpdateNode_view m env stor ns cluster idx node)
  | RemoveNode ns cluster idx nodeID =>
    exact key _ rfl rfl (RemoveNode_view m env stor ns cluster idx nodeID)

/-! ## Versions, failed calls and non-leaders -/

theorem wrapInt64_eq (x : Int) (h : isInt64 x) : wrapInt64 x = x := by
  unfold isInt64 at h
  unfold wrapInt64
  omega

theorem exec_version (m : SlotArith) (env : Env) (stor : Store) (call : Call)
    (ns cluster : String) (topo : Cluster)
    (hg : GetClusterCopy stor ns cluster = Except.ok topo) :
    ∃ topo2, GetClusterCopy (exec m env stor call).1 ns cluster = Except.ok topo2 ∧
      topo2.Version =
        if accepted m env stor call = true ∧ call.target = (ns, cluster) then
          wrapInt64 (topo.Version + 1)
        else topo.Version := by
  rcases exec_cases m env stor call with ⟨t, t2, ev, hgt, he, -, -, hacc, hexec⟩ | ⟨h1, h2⟩
  · by_cases htgt : call.target = (ns, cluster)
    · have h1 : call.target.1 = ns := by rw [htgt]
      have h2 : call.target.2 = cluster := by rw [htgt]
      rw [h1, h2] at hgt hexec
      rw [hg] at hgt
      cases hgt
      refine ⟨t2, ?_, ?_⟩
      · rw [hexec]
        exact GetClusterCopy_commit_same stor ns cluster topo t2 _ hg
      · rw [he.version]
        simp [hacc, htgt]
    · refine ⟨topo, ?_, ?_⟩
      · rw [hexec]
        rw [GetClusterCopy_commit_other stor ns cluster call.target.1 call.target.2 t2 _ htgt]
        exact hg
      · simp [htgt]
  · refine ⟨topo, ?_, ?_⟩
    · rw [h1]; exact hg
    · simp [h2]

/-- Over a run that does not take the version of a cluster beyond the
 largest `int64`, the version grows by the number of accepted mutations of
 the cluster. -/
theorem execAll_version (m : SlotArith) (stor : Store) (ns cluster : String)
    (topo : Cluster) (hg : GetClusterCopy stor ns cluster = Except.ok topo)
    (calls : List (Env × Call)) (hv : isInt64 topo.Version)
    (hmax : topo.Version + (acceptedCount m ns cluster stor calls : Nat) ≤
      9223372036854775807) :
    ∃ topo2, GetClusterCopy (execAll m stor calls) ns cluster = Except.ok topo2 ∧
      topo2.Version = topo.Version + (acceptedCount m ns cluster stor calls : Nat) := by
  induction calls generalizing stor topo with
  | nil => exact ⟨topo, hg, by simp [acceptedCount]⟩
  | cons a rest ih =>
    obtain ⟨env, call⟩ := a
    obtain ⟨topo1, h1, h2⟩ := exec_version m env stor call ns cluster topo hg
    simp only [acceptedCount] at hmax ⊢
    unfold isInt64 at hv
    by_cases hc : accepted m env stor call = true ∧ call.target = (ns, cluster)
    · rw [if_pos hc] at h2 hmax ⊢
      push_cast at hmax ⊢
      have hw : wrapInt64 (topo.Version + 1) = topo.Version + 1 :=
        wrapInt64_eq _ ⟨by omega, by omega⟩
      rw [hw] at h2
      obtain ⟨topo2, h3, h4⟩ := ih (exec m env stor call).1 topo1 h1
        (by rw [h2]; exact ⟨by omega, by omega⟩) (by rw [h2]; omega)
      exact ⟨topo2, h3, by rw [h4, h2]; ring⟩
    · rw [if_neg hc] at h2 hmax ⊢
      push_cast at hmax ⊢
      obtain ⟨topo2, h3, h4⟩ := ih (exec m env stor call).1 topo1 h1
        (by rw [h2]; exact ⟨by omega, by omega⟩) (by rw [h2]; omega)
      exact ⟨topo2, h3, by rw [h4, h2]; ring⟩

/-- C3, as the code has it: on a cluster whose version is the largest
 `int64`, 2^63 - 1, an accepted `CreateShard` leaves the version at -2^63:
 the counter wraps, it is neither the old version plus one nor larger than
 the old version. -/
theorem C3_counterexample :
    GetClusterCopy maxVersionStore "a" "c" =
      Except.ok { Version := 9223372036854775807, Shards := some [emptyShard] } ∧
    accepted listArith leaderEnv maxVersionStore (Call.CreateShard "a" "c" emptyShard) = true ∧
    GetClusterCopy
      (exec listArith leaderEnv maxVersionStore (Call.CreateShard "a" "c" emptyShard)).1
      "a" "c" =
      Except.ok { Version := -9223372036854775808, Shards := some [emptyShard, emptyShard] } ∧
    (-9223372036854775808 : Int) ≠ 9223372036854775807 + 1 ∧
    ¬ ((9223372036854775807 : Int) < -9223372036854775808) :=
  ⟨rfl, by decide, by rfl, by decide, by decide⟩

/-- C3 amended: on a cluster whose version is an `int64` below the largest
 one, every accepted mutation advances the version by exactly one; and over
 any sequence of calls that does not take the version beyond the largest
 `int64`, the version of a cluster grows by the number of accepted mutations
 of that cluster, so it strictly increases along the accepted mutations. -/
theorem C3_version_increments_below_max (m : SlotArith) (stor : Store) (ns cluster : String)
    (topo : Cluster) (hg : GetClusterCopy stor ns cluster = Except.ok topo)
    (hv : isInt64 topo.Version) :
    (∀ env call, call.target = (ns, cluster) → accepted m env stor call = true →
      topo.Version < 9223372036854775807 →
      ∃ topo2, GetClusterCopy (exec m env stor call).1 ns cluster = Except.ok topo2 ∧
        topo2.Version = topo.Version + 1) ∧
    (∀ calls,
      topo.Version + (acceptedCount m ns cluster stor calls : Nat) ≤ 9223372036854775807 →
      ∃ topo2, GetClusterCopy (execAll m stor calls) ns cluster = Except.ok topo2 ∧
        topo2.Version = topo.Version + (acceptedCount m ns cluster stor calls : Nat)) := by
  constructor
  · intro env call htgt hacc hlt
    obtain ⟨topo2, h1, h2⟩ := exec_version m env stor call ns cluster topo hg
    refine ⟨topo2, h1, ?_⟩
    rw [h2, if_pos ⟨hacc, htgt⟩]
    unfold isInt64 at hv
    exact wrapInt64_eq _ ⟨by omega, by omega⟩
  · intro calls hmax
    exact execAll_version m stor ns cluster topo hg calls hv hmax

/-- C3 amended, on the sample cluster at version 4: an accepted
 `CreateNode` followed by a rejected one and an accepted `RemoveShardSlots`
 leave it at version 6. -/
theorem C3_version_increments_below_max_witness :
    ∃ topo2, GetClusterCopy (execAll listArith sampleStore
        [(leaderEnv, Call.CreateNode "a" "c" 0 { ID := "n3", Address := "h3:1", Role := Role.Replica }),
         (leaderEnv, Call.CreateNode "a" "c" 0 { ID := "n4", Address := "h3:1", Role := Role.Replica }),
         (leaderEnv, Call.RemoveShardSlots "a" "c" 0 [{ Start := 0, Stop := 100 }])])
        "a" "c" = Except.ok topo2 ∧
      topo2.Version = 4 + (2 : Nat) :=
  (C3_version_increments_below_max listArith sampleStore "a" "c" sampleCluster (by rfl)
    ⟨by decide, by decide⟩).2
    [(leaderEnv, Call.CreateNode "a" "c" 0 { ID := "n3", Address := "h3:1", Role := Role.Replica }),
     (leaderEnv, Call.CreateNode "a" "c" 0 { ID := "n4", Address := "h3:1", Role := Role.Replica }),
     (leaderEnv, Call.RemoveShardSlots "a" "c" 0 [{ Start := 0, Stop := 100 }])]
    (by decide)

/-- C4: a call that returns an error, whatever the operation, its
 arguments and the cause, leaves the store exactly as it was: the topology
 and version of every cluster are unchanged and no event is logged. -/
theorem C4_error_leaves_store_unchanged (m : SlotArith) (env : Env) (stor : Store)
    (call : Call) (e : Error) (h : (exec m env stor call).2 = Ret.err e) :
    (exec m env stor call).1 = stor := by
  rcases exec_cases m env stor call with ⟨t, t2, ev, -, -, -, -, -, hexec⟩ | ⟨h1, -⟩
  · rw [hexec] at h
    cases h
  · exact h1

/-- C4 on the sample store: a `CreateNode` that passes every check but
 whose commit fails changes nothing. -/
theorem C4_error_leaves_store_unchanged_witness :
    (exec listArith { leader := true, commitErr := some "etcd unavailable" } sampleStore
      (Call.CreateNode "a" "c" 0 { ID := "n3", Address := "h3:1", Role := Role.Replica })).1 =
      sampleStore :=
  C4_error_leaves_store_unchanged listArith { leader := true, commitErr := some "etcd unavailable" }
    sampleStore (Call.CreateNode "a" "c" 0 { ID := "n3", Address := "h3:1", Role := Role.Replica })
    (Error.Persist "etcd unavailable") (by decide)

/-- C5: when the leadership predicate is false every public operation,
 whatever its arguments, fails with ErrSlaveNoSupport (the spec's
 ErrNotLeader) and leaves the store, topology, versions and event log, as it
 was. -/
theorem C5_not_leader (m : SlotArith) (env : Env) (stor : Store) (call : Call)
    (h : env.leader = false) :
    exec m env stor call = (stor, Ret.err Error.ErrSlaveNoSupport) := by
  cases call <;>
    simp [exec, ListShard, GetShard, ListNodes, CreateShard, RemoveShard, AddShardSlots,
      RemoveShardSlots, CreateNode, UpdateNode, RemoveNode, h, Ret.reply]

/-- C5 for a cluster that does not exist and an index out of range: the
 non-leader still answers ErrSlaveNoSupport. -/
theorem C5_not_leader_witness :
    exec listArith { leader := false, commitErr := none } sampleStore
      (Call.RemoveNode "nowhere" "nothing" (-3) "n1") =
      (sampleStore, Ret.err Error.ErrSlaveNoSupport) :=
  C5_not_leader listArith { leader := false, commitErr := none } sampleStore
    (Call.RemoveNode "nowhere" "nothing" (-3) "n1") rfl

/-! ## Invariants of the reachable states -/

/-- A predicate on shards that the new shard of `CreateShard` satisfies and
 that the step of the addressed shard keeps, holds for every shard after an
 accepted call. -/
theorem Effect.preserves (Good : Shard → Prop) {m : SlotArith} {topo topo2 : Cluster}
    {call : Call} {ev : Event} (he : Effect m topo call topo2 ev)
    (hnew : ∀ ns cluster shard, call = Call.CreateShard ns cluster shard → Good shard)
    (hstep : ∀ shardIdx shard shard2 ev2, 0 ≤ shardIdx →
      (elems topo.Shards)[shardIdx.toNat]? = some shard → Good shard →
      ShardStep m shard shardIdx call shard2 ev2 → Good shard2)
    (hall : ∀ shard ∈ elems topo.Shards, Good shard) :
    ∀ shard ∈ elems topo2.Shards, Good shard := by
  cases he with
  | createShard ns cluster shard =>
    intro sh hsh
    simp only [elems, List.mem_append, List.mem_singleton] at hsh
    rcases hsh with h | h
    · exact hall sh h
    · rw [h]; exact hnew ns cluster shard rfl
  | removeShard ns cluster shardIdx shard hin hs hslots =>
    intro sh hsh
    simp only [elems, List.mem_append] at hsh
    rcases hsh with h | h
    · exact hall sh (List.mem_of_mem_take h)
    · exact hall sh (List.mem_of_mem_drop h)
  | onShard _ shardIdx shard shard2 _ hin hs hst =>
    intro sh hsh
    simp only [withShard, elems] at hsh
    rcases List.mem_or_eq_of_mem_set hsh with h | h
    · exact hall sh h
    · rw [h]
      exact hstep shardIdx shard shard2 _ hin.1 hs (hall shard (List.getElem?_mem hs)) hst

/-- A predicate on the shards of a cluster that accepted allowed calls keep
 holds in every state reachable from a store in which the cluster has no
 shards. -/
theorem reachable_invariant (Good : Shard → Prop) (m : SlotArith)
    (allowed : Store → Call → Prop) (init : Store) (ns cluster : String)
    (hkeep : ∀ stor call topo topo2 ev, allowed stor call →
      GetClusterCopy stor call.target.1 call.target.2 = Except.ok topo →
      Effect m topo call topo2 ev → (∀ shard ∈ elems topo.Shards, Good shard) →
      ∀ shard ∈ elems topo2.Shards, Good shard)
    (hinit : ∀ topo, GetClusterCopy init ns cluster = Except.ok topo → len topo.Shards = 0)
    (stor : Store) (hreach : Reachable m allowed init stor) :
    ∀ topo, GetClusterCopy stor ns cluster = Except.ok topo →
      ∀ shard ∈ elems topo.Shards, Good shard := by
  induction hreach with
  | start =>
    intro topo hg shard hsh
    have h0 := hinit topo hg
    rw [len_eq_length] at h0
    rw [List.length_eq_zero.mp h0] at hsh
    cases hsh
  | step stor env call _ hacc hallowed ih =>
    intro topo hg
    rcases exec_cases m env stor call with ⟨t, t2, ev, hgt, he, -, -, -, hexec⟩ | ⟨h1, -⟩
    · rw [hexec] at hg
      by_cases htgt : call.target = (ns, cluster)
      · have e1 : call.target.1 = ns := by rw [htgt]
        have e2 : call.target.2 = cluster := by rw [htgt]
        have hgt2 := hgt
        rw [e1, e2] at hgt2 hg
        rw [GetClusterCopy_commit_same stor ns cluster t t2 _ hgt2] at hg
        cases hg
        exact hkeep stor call t _ ev hallowed hgt he (ih t hgt2)
      · rw [GetClusterCopy_commit_other stor ns cluster call.target.1 call.target.2 t2 _ htgt]
          at hg
        exact ih topo hg
    · rw [h1] at hg
      exact ih topo hg

theorem targetShard_eq (stor : Store) (ns cluster : String) (shardIdx : Int)
    (topo : Cluster) (shard : Shard)
    (hg : GetClusterCopy stor ns cluster = Except.ok topo) (h0 : 0 ≤ shardIdx)
    (hs : (elems topo.Shards)[shardIdx.toNat]? = some shard) :
    targetShard stor ns cluster shardIdx = some shard := by
  unfold targetShard
  rw [hg]
  simp only []
  rw [shardAt_eq topo shardIdx h0, hs]

theorem replacedNode_eq (shard : Shard) (nodeID : String) (idx : Nat) (old : NodeInfo)
    (hidx : nodeIndex nodeID (elems shard.Nodes) = some idx)
    (hn : (elems shard.Nodes)[idx]? = some old) :
    replacedNode shard nodeID = some old := by
  unfold replacedNode
  rw [hidx]
  exact hn

theorem countP_set_same {α : Type} (p : α → Bool) (l : List α) (i : Nat) (old new : α)
    (h : l[i]? = some old) (hp : p new = p old) :
    (l.set i new).countP p = l.countP p := by
  induction l generalizing i with
  | nil => simp
  | cons a rest ih =>
    cases i with
    | zero =>
      simp only [List.getElem?_cons_zero, Option.some.injEq] at h
      subst h
      simp [List.countP_cons, hp]
    | succ k =>
      simp only [List.getElem?_cons_succ] at h
      simp [List.countP_cons, ih k h]

theorem countP_splice {α : Type} (p : α → Bool) (l : List α) (i : Nat) (x : α)
    (h : l[i]? = some x) :
    (l.take i ++ l.drop (i + 1)).countP p + (if p x = true then 1 else 0) = l.countP p := by
  induction l generalizing i with
  | nil => simp at h
  | cons a rest ih =>
    cases i with
    | zero =>
      simp only [List.getElem?_cons_zero, Option.some.injEq] at h
      subst h
      simp [List.countP_cons]
    | succ k =>
      simp only [List.getElem?_cons_succ] at h
      have := ih k h
      simp only [List.take_succ_cons, List.drop_succ_cons, List.cons_append, List.countP_cons]
      omega

theorem length_splice {α : Type} (l : List α) (i : Nat) (x : α) (h : l[i]? = some x) :
    (l.take i ++ l.drop (i + 1)).length + 1 = l.length := by
  have hlt := (List.getElem?_eq_some_iff.mp h).1
  simp only [List.length_append, List.length_take, List.length_drop]
  omega

theorem set_same {α : Type} (l : List α) (i : Nat) (x : α) (h : l[i]? = some x) :
    l.set i x = l := by
  induction l generalizing i with
  | nil => simp
  | cons a rest ih =>
    cases i with
    | zero =>
      simp only [List.getElem?_cons_zero, Option.some.injEq] at h
      subst h
      rfl
    | succ k =>
      simp only [List.getElem?_cons_succ] at h
      simp [ih k h]

theorem removeCheck_none_master (shard : Shard) (node : NodeInfo)
    (hc : removeCheck shard node = none) (hm : node.IsMaster = true) :
    shard.SlotRanges = [] ∧ len shard.Nodes ≤ 1 := by
  unfold removeCheck at hc
  split at hc
  · rw [if_pos (Or.inr hm)] at hc
    cases hc
  · rename_i h
    split at hc
    · cases hc
    · rename_i h2
      refine ⟨?_, ?_⟩
      · cases hsl : shard.SlotRanges with
        | nil => rfl
        | cons a rest => simp [hsl] at h
      · by_contra hgt
        exact h2 ⟨hm, by omega⟩

/-- A step of the addressed shard keeps a single Master, provided an
 `UpdateNode` keeps the role of the node it replaces. -/
theorem OneMaster_step {m : SlotArith} {shard shard2 : Shard} {shardIdx : Int}
    {call : Call} {ev : Event} (hst : ShardStep m shard shardIdx call shard2 ev)
    (hgood : OneMaster shard)
    (hupd : ∀ ns cluster node, call = Call.UpdateNode ns cluster shardIdx node →
      ∀ old, replacedNode shard node.ID = some old → node.Role = old.Role) :
    OneMaster shard2 := by
  cases hst with
  | addShardSlots ns cluster slotRanges hnodes => exact hgood
  | removeShardSlots ns cluster slotRanges => exact hgood
  | createNode ns cluster node hfresh hfirst hrest =>
    intro _
    by_cases h0 : len shard.Nodes = 0
    · have hnil : elems shard.Nodes = [] := by
        rw [len_eq_length] at h0
        exact List.length_eq_zero.mp h0
      simp [masters, elems_some, hnil, hfirst h0]
    · have h1 := hgood h0
      unfold masters at h1 ⊢
      simp only [elems_some, List.countP_append, List.countP_cons, List.countP_nil, hrest h0]
      simpa using h1
  | updateNode ns cluster node idx hidx =>
    obtain ⟨old, hn, -, -⟩ := nodeIndex_some _ _ _ hidx
    have hrole := hupd ns cluster node rfl old (replacedNode_eq shard node.ID idx old hidx hn)
    intro _
    have h0 : len shard.Nodes ≠ 0 := by
      rw [len_eq_length]
      have := (List.getElem?_eq_some_iff.mp hn).1
      omega
    have h1 := hgood h0
    unfold masters at h1 ⊢
    simp only [elems_some]
    rw [countP_set_same _ _ idx old node hn (by simp [NodeInfo.IsMaster, hrole])]
    exact h1
  | removeNode ns cluster nodeID nodeIdx node hidx hnode hcheck =>
    intro hlen
    have h0 : len shard.Nodes ≠ 0 := by
      rw [len_eq_length]
      have := (List.getElem?_eq_some_iff.mp hnode).1
      omega
    have h1 := hgood h0
    have hcount := countP_splice (fun n : NodeInfo => n.IsMaster) _ nodeIdx node hnode
    have hlength := length_splice _ nodeIdx node hnode
    unfold masters at h1 ⊢
    simp only [elems_some, len_some] at hlen ⊢
    by_cases hm : node.IsMaster = true
    · have := (removeCheck_none_master shard node hcheck hm).2
      rw [len_eq_length] at this
      omega
    · have hcount2 : List.countP (fun n : NodeInfo => n.IsMaster)
          (List.take nodeIdx (elems shard.Nodes) ++ List.drop (nodeIdx + 1) (elems shard.Nodes))
          = List.countP (fun n : NodeInfo => n.IsMaster) (elems shard.Nodes) := by
        rw [← hcount]
        simp [hm]
      rw [hcount2]
      exact h1

/-- A step of the addressed shard keeps the addresses distinct, provided
 an `UpdateNode` gives the address of the node it replaces or a new one. -/
theorem DistinctAddresses_step {m : SlotArith} {shard shard2 : Shard} {shardIdx : Int}
    {call : Call} {ev : Event} (hst : ShardStep m shard shardIdx call shard2 ev)
    (hgood : DistinctAddresses shard)
    (hupd : ∀ ns cluster node, call = Call.UpdateNode ns cluster shardIdx node →
      ∀ old, replacedNode shard node.ID = some old →
      node.Address = old.Address ∨ ∀ n ∈ elems shard.Nodes, n.Address ≠ node.Address) :
    DistinctAddresses shard2 := by
  cases hst with
  | addShardSlots ns cluster slotRanges hnodes => exact hgood
  | removeShardSlots ns cluster slotRanges => exact hgood
  | createNode ns cluster node hfresh hfirst hrest =>
    unfold DistinctAddresses at hgood ⊢
    simp only [elems_some, List.map_append, List.map_cons, List.map_nil]
    rw [List.nodup_append]
    refine ⟨hgood, List.nodup_singleton _, ?_⟩
    intro a ha hb
    simp only [List.mem_singleton] at hb
    obtain ⟨n, hn, hna⟩ := List.mem_map.mp ha
    exact hfresh n hn (hna.trans hb)
  | updateNode ns cluster node idx hidx =>
    obtain ⟨old, hn, -, -⟩ := nodeIndex_some _ _ _ hidx
    unfold DistinctAddresses at hgood ⊢
    simp only [elems_some, List.map_set]
    rcases hupd ns cluster node rfl old (replacedNode_eq shard node.ID idx old hidx hn)
      with h | h
    · rw [set_same _ idx node.Address (by simp [hn, h])]
      exact hgood
    · apply List.Nodup.set hgood
      intro hmem
      obtain ⟨n, hn2, hna⟩ := List.mem_map.mp hmem
      exact h n hn2 hna
  | removeNode ns cluster nodeID nodeIdx node hidx hnode hcheck =>
    unfold DistinctAddresses at hgood ⊢
    simp only [elems_some]
    rw [← List.eraseIdx_eq_take_drop_succ]
    exact List.Nodup.sublist ((List.eraseIdx_sublist _ _).map _) hgood

/-- A step of the addressed shard keeps a Master in a shard with nodes or
 slot ranges, provided an `UpdateNode` does not replace a Master by a
 Replica and removing slot ranges from none leaves none. -/
theorem HasMaster_step {m : SlotArith} {shard shard2 : Shard} {shardIdx : Int}
    {call : Call} {ev : Event} (hst : ShardStep m shard shardIdx call shard2 ev)
    (hgood : HasMaster shard)
    (hm : ∀ ranges, m.RemoveSlotRanges [] ranges = [])
    (hupd : ∀ ns cluster node, call = Call.UpdateNode ns cluster shardIdx node →
      ∀ old, replacedNode shard node.ID = some old →
      old.IsMaster = true → node.IsMaster = true) :
    HasMaster shard2 := by
  cases hst with
  | addShardSlots ns cluster slotRanges hnodes =>
    intro _
    exact hgood (Or.inl hnodes)
  | removeShardSlots ns cluster slotRanges =>
    intro h
    apply hgood
    rcases h with h | h
    · exact Or.inl h
    · right
      intro hnil
      apply h
      simp only [hnil]
      exact hm slotRanges
  | createNode ns cluster node hfresh hfirst hrest =>
    intro _
    by_cases h0 : len shard.Nodes = 0
    · exact ⟨node, by simp [elems_some], hfirst h0⟩
    · obtain ⟨n, hn, hnm⟩ := hgood (Or.inl h0)
      exact ⟨n, by simp only [elems_some, List.mem_append]; exact Or.inl hn, hnm⟩
  | updateNode ns cluster node idx hidx =>
    obtain ⟨old, hn, -, -⟩ := nodeIndex_some _ _ _ hidx
    have hlt := (List.getElem?_eq_some_iff.mp hn).1
    have hrole := hupd ns cluster node rfl old (replacedNode_eq shard node.ID idx old hidx hn)
    intro _
    have h0 : len shard.Nodes ≠ 0 := by
      rw [len_eq_length]
      omega
    obtain ⟨n, hnmem, hnm⟩ := hgood (Or.inl h0)
    obtain ⟨j, hj⟩ := List.mem_iff_getElem?.mp hnmem
    by_cases hji : idx = j
    · subst hji
      rw [hn] at hj
      cases hj
      refine ⟨node, ?_, hrole hnm⟩
      simp only [elems_some]
      exact List.getElem?_mem (List.getElem?_set_self hlt)
    · refine ⟨n, ?_, hnm⟩
      simp only [elems_some]
      refine List.getElem?_mem (?_ : _[j]? = some n)
      rw [List.getElem?_set_ne hji]
      exact hj
  | removeNode ns cluster nodeID nodeIdx node hidx hnode hcheck =>
    have hlt := (List.getElem?_eq_some_iff.mp hnode).1
    have hlength := length_splice _ nodeIdx node hnode
    have h0 : len shard.Nodes ≠ 0 := by
      rw [len_eq_length]
      omega
    obtain ⟨n, hnmem, hnm⟩ := hgood (Or.inl h0)
    obtain ⟨j, hj⟩ := List.mem_iff_getElem?.mp hnmem
    intro hor
    by_cases hmaster : node.IsMaster = true
    · obtain ⟨hsl, hle⟩ := removeCheck_none_master shard node hcheck hmaster
      rw [len_eq_length] at hle
      exfalso
      rcases hor with h | h
      · simp only [len_some] at h
        omega
      · exact h hsl
    · have hji : j ≠ nodeIdx := by
        intro heq
        subst heq
        rw [hnode] at hj
        cases hj
        exact hmaster hnm
      refine ⟨n, ?_, hnm⟩
      simp only [elems_some]
      rw [← List.eraseIdx_eq_take_drop_succ]
      exact List.mem_eraseIdx_iff_getElem?.mpr ⟨j, hji, hj⟩

/-- C6, as the code has it: one accepted `CreateShard` of a shard with two
 Masters, on a cluster with no shards, gives a state whose shard has nodes
 and two Masters. -/
theorem C6_counterexample :
    GetClusterCopy emptyStore "a" "c" = Except.ok { Version := 0, Shards := none } ∧
    Reachable listArith anyCall emptyStore
      (exec listArith leaderEnv emptyStore (Call.CreateShard "a" "c" twoMasters)).1 ∧
    GetClusterCopy (exec listArith leaderEnv emptyStore (Call.CreateShard "a" "c" twoMasters)).1
      "a" "c" = Except.ok { Version := 1, Shards := some [twoMasters] } ∧
    len twoMasters.Nodes ≠ 0 ∧ masters twoMasters = 2 :=
  ⟨rfl, Reachable.step emptyStore leaderEnv _ Reachable.start (by decide) trivial, rfl,
    by decide, by decide⟩

/-- C6 amended: in every state reachable from a cluster with no shards by
 accepted mutations in which every shard handed to `CreateShard` has exactly
 one Master if it has nodes and every `UpdateNode` keeps the role of the node
 it replaces, every shard that has a node has exactly one Master. -/
theorem C6_one_master (m : SlotArith) (init : Store) (ns cluster : String)
    (hinit : ∀ topo, GetClusterCopy init ns cluster = Except.ok topo → len topo.Shards = 0)
    (stor : Store) (hreach : Reachable m keepsRoles init stor) (topo : Cluster)
    (hg : GetClusterCopy stor ns cluster = Except.ok topo) (shard : Shard)
    (hsh : shard ∈ elems topo.Shards) (hne : len shard.Nodes ≠ 0) :
    masters shard = 1 := by
  refine reachable_invariant OneMaster m keepsRoles init ns cluster ?_ hinit stor hreach
    topo hg shard hsh hne
  intro st call t t2 ev hallowed hgt he hall
  refine he.preserves OneMaster ?_ ?_ hall
  · intro ns2 cluster2 sh hcall
    subst hcall
    exact hallowed
  · intro shardIdx sh sh2 ev2 h0 hs hgood hst
    refine OneMaster_step hst hgood ?_
    intro ns2 cluster2 node hcall old hrep
    subst hcall
    exact hallowed sh old (targetShard_eq st ns2 cluster2 shardIdx t sh hgt h0 hs) hrep

/-- C6 amended, on a run: an empty shard is created, then a Master is
 added to it; the shard has one Master. -/
theorem C6_one_master_witness :
    masters { Nodes := some [sampleMaster], SlotRanges := [] } = 1 :=
  C6_one_master listArith emptyStore "a" "c"
    (by intro topo h; cases h; rfl)
    (exec listArith leaderEnv
      (exec listArith leaderEnv emptyStore (Call.CreateShard "a" "c" emptyShard)).1
      (Call.CreateNode "a" "c" 0 sampleMaster)).1
    (Reachable.step _ leaderEnv (Call.CreateNode "a" "c" 0 sampleMaster)
      (Reachable.step emptyStore leaderEnv (Call.CreateShard "a" "c" emptyShard)
        Reachable.start (by decide) (fun h => absurd rfl h))
      (by decide) trivial)
    { Version := 2, Shards := some [{ Nodes := some [sampleMaster], SlotRanges := [] }] }
    (by rfl) { Nodes := some [sampleMaster], SlotRanges := [] } (by decide) (by decide)

/-- C7, as the code has it: one accepted `CreateShard` of a shard whose
 two nodes share the address h1:1, on a cluster with no shards, gives a state
 whose shard has that address twice. -/
theorem C7_counterexample :
    GetClusterCopy emptyStore "a" "c" = Except.ok { Version := 0, Shards := none } ∧
    Reachable listArith anyCall emptyStore
      (exec listArith leaderEnv emptyStore (Call.CreateShard "a" "c" sameAddress)).1 ∧
    GetClusterCopy (exec listArith leaderEnv emptyStore (Call.CreateShard "a" "c" sameAddress)).1
      "a" "c" = Except.ok { Version := 1, Shards := some [sameAddress] } ∧
    (elems sameAddress.Nodes).map (fun n => n.Address) = ["h1:1", "h1:1"] ∧
    ¬ DistinctAddresses sameAddress :=
  ⟨rfl, Reachable.step emptyStore leaderEnv _ Reachable.start (by decide) trivial, rfl, rfl,
    by unfold DistinctAddresses; decide⟩

/-- C7 amended: in every state reachable from a cluster with no shards by
 accepted mutations in which every shard handed to `CreateShard` has pairwise
 distinct addresses and every `UpdateNode` gives the address of the node it
 replaces or an address new to the shard, the addresses of the nodes of each
 shard are pairwise distinct. -/
theorem C7_distinct_addresses (m : SlotArith) (init : Store) (ns cluster : String)
    (hinit : ∀ topo, GetClusterCopy init ns cluster = Except.ok topo → len topo.Shards = 0)
    (stor : Store) (hreach : Reachable m keepsAddresses init stor) (topo : Cluster)
    (hg : GetClusterCopy stor ns cluster = Except.ok topo) (shard : Shard)
    (hsh : shard ∈ elems topo.Shards) :
    ((elems shard.Nodes).map (fun n => n.Address)).Nodup := by
  refine reachable_invariant DistinctAddresses m keepsAddresses init ns cluster ?_ hinit stor
    hreach topo hg shard hsh
  intro st call t t2 ev hallowed hgt he hall
  refine he.preserves DistinctAddresses ?_ ?_ hall
  · intro ns2 cluster2 sh hcall
    subst hcall
    exact hallowed
  · intro shardIdx sh sh2 ev2 h0 hs hgood hst
    refine DistinctAddresses_step hst hgood ?_
    intro ns2 cluster2 node hcall old hrep
    subst hcall
    exact hallowed sh old (targetShard_eq st ns2 cluster2 shardIdx t sh hgt h0 hs) hrep

/-- C7 amended, on a run: an empty shard is created, a Master and a
 Replica are added; their addresses are distinct. -/
theorem C7_distinct_addresses_witness :
    ((elems (some [sampleMaster, sampleReplica])).map (fun n => n.Address)).Nodup :=
  C7_distinct_addresses listArith emptyStore "a" "c"
    (by intro topo h; cases h; rfl)
    (exec listArith leaderEnv
      (exec listArith leaderEnv
        (exec listArith leaderEnv emptyStore (Call.CreateShard "a" "c" emptyShard)).1
        (Call.CreateNode "a" "c" 0 sampleMaster)).1
      (Call.CreateNode "a" "c" 0 sampleReplica)).1
    (Reachable.step _ leaderEnv (Call.CreateNode "a" "c" 0 sampleReplica)
      (Reachable.step _ leaderEnv (Call.CreateNode "a" "c" 0 sampleMaster)
        (Reachable.step emptyStore leaderEnv (Call.CreateShard "a" "c" emptyShard)
          Reachable.start (by decide) List.nodup_nil)
        (by decide) trivial)
      (by decide) trivial)
    { Version := 3,
      Shards := some [{ Nodes := some [sampleMaster, sampleReplica], SlotRanges := [] }] }
    (by rfl) { Nodes := some [sampleMaster, sampleReplica], SlotRanges := [] } (by decide)

/-- C8, as the code has it: one accepted `CreateShard` of a shard that owns
 a slot range and has no node, on a cluster with no shards, gives a state
 whose shard owns slots and contains no node at all. -/
theorem C8_counterexample :
    GetClusterCopy emptyStore "a" "c" = Except.ok { Version := 0, Shards := none } ∧
    Reachable listArith anyCall emptyStore
      (exec listArith leaderEnv emptyStore (Call.CreateShard "a" "c" slotsOnly)).1 ∧
    GetClusterCopy (exec listArith leaderEnv emptyStore (Call.CreateShard "a" "c" slotsOnly)).1
      "a" "c" = Except.ok { Version := 1, Shards := some [slotsOnly] } ∧
    slotsOnly.SlotRanges ≠ [] ∧ elems slotsOnly.Nodes = [] :=
  ⟨rfl, Reachable.step emptyStore leaderEnv _ Reachable.start (by decide) trivial, rfl,
    by decide, rfl⟩

/-- C8 amended: in every state reachable from a cluster with no shards by
 accepted mutations in which every shard handed to `CreateShard` contains a
 Master unless it has neither nodes nor slot ranges and no `UpdateNode`
 replaces a Master by a Replica, every shard whose slot ranges are non-empty
 contains a Master (removing slot ranges from none leaving none). -/
theorem C8_slots_have_master (m : SlotArith) (init : Store) (ns cluster : String)
    (hm : ∀ ranges, m.RemoveSlotRanges [] ranges = [])
    (hinit : ∀ topo, GetClusterCopy init ns cluster = Except.ok topo → len topo.Shards = 0)
    (stor : Store) (hreach : Reachable m keepsMaster init stor) (topo : Cluster)
    (hg : GetClusterCopy stor ns cluster = Except.ok topo) (shard : Shard)
    (hsh : shard ∈ elems topo.Shards) (hslots : shard.SlotRanges ≠ []) :
    ∃ n ∈ elems shard.Nodes, n.Role = Role.Master := by
  have hgood : HasMaster shard := by
    refine reachable_invariant HasMaster m keepsMaster init ns cluster ?_ hinit stor
      hreach topo hg shard hsh
    intro st call t t2 ev hallowed hgt he hall
    refine he.preserves HasMaster ?_ ?_ hall
    · intro ns2 cluster2 sh hcall
      subst hcall
      exact hallowed
    · intro shardIdx sh sh2 ev2 h0 hs hgood hst
      refine HasMaster_step hst hgood hm ?_
      intro ns2 cluster2 node hcall old hrep
      subst hcall
      exact hallowed sh old (targetShard_eq st ns2 cluster2 shardIdx t sh hgt h0 hs) hrep
  obtain ⟨n, hn, hmaster⟩ := hgood (Or.inr hslots)
  exact ⟨n, hn, by simpa [NodeInfo.IsMaster] using hmaster⟩

/-- C8 amended, on a run: an empty shard is created, a Master is added,
 then a slot range; the slot-owning shard contains the Master. -/
theorem C8_slots_have_master_witness :
    ∃ n ∈ elems (some [sampleMaster]), n.Role = Role.Master :=
  C8_slots_have_master listArith emptyStore "a" "c" (fun _ => rfl)
    (by intro topo h; cases h; rfl)
    (exec listArith leaderEnv
      (exec listArith leaderEnv
        (exec listArith leaderEnv emptyStore (Call.CreateShard "a" "c" emptyShard)).1
        (Call.CreateNode "a" "c" 0 sampleMaster)).1
      (Call.AddShardSlots "a" "c" 0 [{ Start := 0, Stop := 100 }])).1
    (Reachable.step _ leaderEnv (Call.AddShardSlots "a" "c" 0 [{ Start := 0, Stop := 100 }])
      (Reachable.step _ leaderEnv (Call.CreateNode "a" "c" 0 sampleMaster)
        (Reachable.step emptyStore leaderEnv (Call.CreateShard "a" "c" emptyShard)
          Reachable.start (by decide)
          (fun h => h.elim (fun h1 => absurd rfl h1) (fun h2 => absurd rfl h2)))
        (by decide) trivial)
      (by decide) trivial)
    { Version := 3,
      Shards := some [{ Nodes := some [sampleMaster],
                        SlotRanges := [{ Start := 0, Stop := 100 }] }] }
    (by rfl) { Nodes := some [sampleMaster], SlotRanges := [{ Start := 0, Stop := 100 }] }
    (by decide) (by decide)

/-! ## The event log -/

theorem Effect.specEvent_eq {m : SlotArith} {topo topo2 : Cluster} {call : Call} {ev : Event}
    (he : Effect m topo call topo2 ev) (stor : Store) (events : List Event)
    (hg : GetClusterCopy stor call.target.1 call.target.2 = Except.ok topo) :
    specEvent { clusters := replace call.target.1 call.target.2 topo2 stor.clusters,
                events := events } call = some ev := by
  cases he with
  | createShard ns cluster shard =>
    simp only [Call.target] at hg ⊢
    simp only [specEvent]
    rw [GetClusterCopy_commit_same stor ns cluster topo _ _ hg]
    simp only [len_eq_length, elems_some, List.length_append, List.length_singleton]
    congr 2
    push_cast
    ring
  | removeShard ns cluster shardIdx shard hin hs hslots => rfl
  | onShard _ shardIdx shard shard2 _ hin hs hst =>
    cases hst with
    | addShardSlots ns cluster slotRanges hnodes => rfl
    | removeShardSlots ns cluster slotRanges => rfl
    | createNode ns cluster node hfresh hfirst hrest => rfl
    | updateNode ns cluster node idx hidx => rfl
    | removeNode ns cluster nodeID nodeIdx node hidx hnode hcheck =>
      obtain ⟨n, hn, hid, -⟩ := nodeIndex_some _ _ _ hidx
      rw [hnode] at hn
      cases hn
      simp [specEvent, hid]

/-- One call adds to the log the spec's event when it is an accepted
 mutation, and nothing otherwise. -/
theorem exec_events (ns cluster : String) (m : SlotArith) (env : Env) (stor : Store)
    (call : Call) :
    (exec m env stor call).1.events = stor.events ++
      (if accepted m env stor call = true then
        (specEvent (exec m env stor call).1 call).toList
      else []) ∧
    (eventsOf ns cluster
      (if accepted m env stor call = true then
        (specEvent (exec m env stor call).1 call).toList
      else [])).length =
      (if accepted m env stor call = true ∧ call.target = (ns, cluster) then 1 else 0) := by
  rcases exec_cases m env stor call with ⟨t, t2, ev, hgt, he, -, -, hacc, hexec⟩ | ⟨h1, h2⟩
  · have hspec := he.specEvent_eq stor (stor.events ++ [ev]) hgt
    have htgt := he.event_target
    rw [hexec]
    simp only [hacc, if_true, hspec, Option.toList, true_and]
    by_cases hc : call.target = (ns, cluster)
    · have hev : (ev.Namespace, ev.Cluster) = (ns, cluster) := htgt.trans hc
      simp only [eventsOf, List.filter, hev, decide_True, if_pos hc, List.length_singleton]
    · have hev : ¬ (ev.Namespace, ev.Cluster) = (ns, cluster) := fun h => hc (htgt.symm.trans h)
      simp only [eventsOf, List.filter, hev, decide_False, if_neg hc, List.length_nil]
  · rw [h1]
    simp [h2, eventsOf]

theorem execAll_events (m : SlotArith) (stor : Store) (calls : List (Env × Call)) :
    (execAll m stor calls).events = stor.events ++ expectedEvents m stor calls := by
  induction calls generalizing stor with
  | nil => simp [execAll, expectedEvents]
  | cons a rest ih =>
    obtain ⟨env, call⟩ := a
    simp only [execAll, expectedEvents]
    rw [ih, (exec_events "" "" m env stor call).1, List.append_assoc]

theorem eventsOf_expectedEvents (m : SlotArith) (ns cluster : String) (stor : Store)
    (calls : List (Env × Call)) :
    (eventsOf ns cluster (expectedEvents m stor calls)).length =
      acceptedCount m ns cluster stor calls := by
  induction calls generalizing stor with
  | nil => rfl
  | cons a rest ih =>
    obtain ⟨env, call⟩ := a
    simp only [expectedEvents, acceptedCount]
    rw [← ih, ← (exec_events ns cluster m env stor call).2]
    simp [eventsOf]

/-- C9, as the code has it: on a cluster whose version is the largest
 `int64`, 2^63 - 1, one accepted `CreateShard` logs one event while the
 version goes to -2^63, so the number of events is not the increase of the
 version. -/
theorem C9_counterexample :
    GetClusterCopy maxVersionStore "a" "c" =
      Except.ok { Version := 9223372036854775807, Shards := some [emptyShard] } ∧
    (execAll listArith maxVersionStore
      [(leaderEnv, Call.CreateShard "a" "c" emptyShard)]).events =
      [{ Namespace := "a", Cluster := "c", Shard := 1, NodeID := "",
         Type_ := EventType.EventShard, Command := Command.CommandCreate }] ∧
    GetClusterCopy
      (execAll listArith maxVersionStore [(leaderEnv, Call.CreateShard "a" "c" emptyShard)])
      "a" "c" =
      Except.ok { Version := -9223372036854775808, Shards := some [emptyShard, emptyShard] } ∧
    (1 : Int) ≠ -9223372036854775808 - 9223372036854775807 :=
  ⟨rfl, by decide, by rfl, by decide⟩

/-- C9 amended: for every sequence of calls the events logged are exactly,
 in order, the spec's event of each accepted mutation and none for any other
 call; and for every cluster of the store whose version is an `int64` that
 the run does not take beyond the largest one, the number of its events
 logged during the run equals the increase of its version. -/
theorem C9_event_log_bounded (m : SlotArith) (stor : Store) (calls : List (Env × Call)) :
    (execAll m stor calls).events = stor.events ++ expectedEvents m stor calls ∧
    ∀ ns cluster topo, GetClusterCopy stor ns cluster = Except.ok topo →
      isInt64 topo.Version →
      topo.Version + ((eventsOf ns cluster (expectedEvents m stor calls)).length : Nat) ≤
        9223372036854775807 →
      ∃ topo2, GetClusterCopy (execAll m stor calls) ns cluster = Except.ok topo2 ∧
        ((eventsOf ns cluster (expectedEvents m stor calls)).length : Int) =
          topo2.Version - topo.Version := by
  refine ⟨execAll_events m stor calls, ?_⟩
  intro ns cluster topo hg hv hmax
  rw [eventsOf_expectedEvents] at hmax ⊢
  obtain ⟨topo2, h1, h2⟩ := execAll_version m stor ns cluster topo hg calls hv hmax
  refine ⟨topo2, h1, ?_⟩
  rw [h2]
  ring

/-- C9 amended, on the run of the spec's scenarios 1 and 2: a shard is
 created, a Replica is refused, a Master and a Replica are added, then a slot
 range; four events are logged, in this order, and the version, 0 at the
 start, has grown by four. -/
theorem C9_event_log_bounded_witness :
    (execAll listArith emptyStore
      [(leaderEnv, Call.CreateShard "a" "c" emptyShard),
       (leaderEnv, Call.CreateNode "a" "c" 0 sampleReplica),
       (leaderEnv, Call.CreateNode "a" "c" 0 sampleMaster),
       (leaderEnv, Call.CreateNode "a" "c" 0 sampleReplica),
       (leaderEnv, Call.AddShardSlots "a" "c" 0 [{ Start := 0, Stop := 100 }])]).events =
      [{ Namespace := "a", Cluster := "c", Shard := 0, NodeID := "",
         Type_ := EventType.EventShard, Command := Command.CommandCreate },
       { Namespace := "a", Cluster := "c", Shard := 0, NodeID := "n1",
         Type_ := EventType.EventNode, Command := Command.CommandCreate },
       { Namespace := "a", Cluster := "c", Shard := 0, NodeID := "n2",
         Type_ := EventType.EventNode, Command := Command.CommandCreate },
       { Namespace := "a", Cluster := "c", Shard := 0, NodeID := "",
         Type_ := EventType.EventShard, Command := Command.CommandAddSlots }] ∧
    ∃ topo2,
      GetClusterCopy (execAll listArith emptyStore
        [(leaderEnv, Call.CreateShard "a" "c" emptyShard),
         (leaderEnv, Call.CreateNode "a" "c" 0 sampleReplica),
         (leaderEnv, Call.CreateNode "a" "c" 0 sampleMaster),
         (leaderEnv, Call.CreateNode "a" "c" 0 sampleReplica),
         (leaderEnv, Call.AddShardSlots "a" "c" 0 [{ Start := 0, Stop := 100 }])])
        "a" "c" = Except.ok topo2 ∧
      ((4 : Nat) : Int) = topo2.Version - 0 :=
  ⟨(C9_event_log_bounded listArith emptyStore
    [(leaderEnv, Call.CreateShard "a" "c" emptyShard),
     (leaderEnv, Call.CreateNode "a" "c" 0 sampleReplica),
     (leaderEnv, Call.CreateNode "a" "c" 0 sampleMaster),
     (leaderEnv, Call.CreateNode "a" "c" 0 sampleReplica),
     (leaderEnv, Call.AddShardSlots "a" "c" 0 [{ Start := 0, Stop := 100 }])]).1,
   (C9_event_log_bounded listArith emptyStore
    [(leaderEnv, Call.CreateShard "a" "c" emptyShard),
     (leaderEnv, Call.CreateNode "a" "c" 0 sampleReplica),
     (leaderEnv, Call.CreateNode "a" "c" 0 sampleMaster),
     (leaderEnv, Call.CreateNode "a" "c" 0 sampleReplica),
     (leaderEnv, Call.AddShardSlots "a" "c" 0 [{ Start := 0, Stop := 100 }])]).2
    "a" "c" { Version := 0, Shards := none } rfl ⟨by decide, by decide⟩ (by decide)⟩

/-! ## ListShard -/

/-- The loop of `ListShard` panics on its first assignment when the
 destination has length zero and there is a shard to visit. -/
theorem listShardLoop_panics (i : Nat) (shard : Shard) (rest : List Shard) :
    listShardLoop (some []) i (shard :: rest) = none := by
  simp [listShardLoop, assign, len]

/-- `ListShard` on a cluster that has a shard panics; on a cluster without
 shards it returns an empty slice. -/
theorem ListShard_eq (env : Env) (stor : Store) (ns cluster : String) (topo : Cluster)
    (hl : env.leader = true) (hg : GetClusterCopy stor ns cluster = Except.ok topo) :
    ListShard env stor ns cluster =
      if len topo.Shards = 0 then Ret.ok (some []) else Ret.panic := by
  unfold ListShard
  simp only [hl, hg]
  rw [len_eq_length]
  cases hsh : elems topo.Shards with
  | nil => simp [listShardLoop]
  | cons shard rest => simp [listShardLoop_panics]

/-- C10, as the code has it: on the sample cluster, which has one shard,
 `ListShard` called by the leader panics instead of returning the shard. -/
theorem C10_ListShard_panics :
    GetClusterCopy sampleStore "a" "c" = Except.ok sampleCluster ∧
    len sampleCluster.Shards = 1 ∧
    ListShard leaderEnv sampleStore "a" "c" = Ret.panic :=
  ⟨rfl, rfl, by decide⟩

/-! ## ListNodes, GetShard and the role check of UpdateNode -/

/-- `ListNodes` for a leader, an existing cluster and an in-range index
 returns an empty slice, whatever nodes the shard has. -/
theorem ListNodes_eq (env : Env) (stor : Store) (ns cluster : String) (shardIdx : Int)
    (topo : Cluster) (shard : Shard)
    (hl : env.leader = true) (hg : GetClusterCopy stor ns cluster = Except.ok topo)
    (hin : 0 ≤ shardIdx ∧ shardIdx < (len topo.Shards : Int))
    (hs : (elems topo.Shards)[shardIdx.toNat]? = some shard) :
    ListNodes env stor ns cluster shardIdx = Ret.ok (some []) := by
  unfold ListNodes
  simp [hl, getShard_eq stor ns cluster shardIdx topo shard hg hin hs, copy]

/-- C11, as the code has it: on the sample shard, which has two nodes,
 `ListNodes` called by the leader returns an empty slice. -/
theorem C11_ListNodes_empty :
    GetClusterCopy sampleStore "a" "c" = Except.ok sampleCluster ∧
    (elems sampleCluster.Shards)[0]? = some sampleShard ∧
    len sampleShard.Nodes = 2 ∧
    ListNodes leaderEnv sampleStore "a" "c" 0 = Ret.ok (some []) :=
  ⟨rfl, rfl, rfl, by decide⟩

/-- C14, as the code has it: on the sample shard, which has the Master n1
 and the Replica n2, `UpdateNode` accepts a replacement of n2 by a Master,
 leaving two Masters, and a replacement of n1 by a Replica, leaving none. -/
theorem C14_UpdateNode_accepts_role_change :
    masters sampleShard = 1 ∧
    UpdateNode leaderEnv sampleStore "a" "c" 0
        { ID := "n2", Address := "h2:1", Role := Role.Master } =
      ({ clusters := [(("a", "c"),
           { Version := 5,
             Shards := some [{ Nodes := some [sampleMaster,
                                 { ID := "n2", Address := "h2:1", Role := Role.Master }],
                               SlotRanges := [{ Start := 0, Stop := 100 }] }] })],
         events := [{ Namespace := "a", Cluster := "c", Shard := 0, NodeID := "n2",
                      Type_ := EventType.EventNode, Command := Command.CommandUpdate }] },
       Ret.ok ()) ∧
    masters { Nodes := some [sampleMaster, { ID := "n2", Address := "h2:1", Role := Role.Master }],
              SlotRanges := [{ Start := 0, Stop := 100 }] } = 2 ∧
    UpdateNode leaderEnv sampleStore "a" "c" 0
        { ID := "n1", Address := "h1:1", Role := Role.Replica } =
      ({ clusters := [(("a", "c"),
           { Version := 5,
             Shards := some [{ Nodes := some [{ ID := "n1", Address := "h1:1",
                                                Role := Role.Replica }, sampleReplica],
                               SlotRanges := [{ Start := 0, Stop := 100 }] }] })],
         events := [{ Namespace := "a", Cluster := "c", Shard := 0, NodeID := "n1",
                      Type_ := EventType.EventNode, Command := Command.CommandUpdate }] },
       Ret.ok ()) ∧
    masters { Nodes := some [{ ID := "n1", Address := "h1:1", Role := Role.Replica },
                             sampleReplica],
              SlotRanges := [{ Start := 0, Stop := 100 }] } = 0 :=
  ⟨by decide, by decide, by decide, by decide, by decide⟩

/-- C16, as the code has it: on a cluster whose shard slice is nil,
 `GetShard` called by the leader fails with the shard-not-found error of
 `getShard`, not with ErrShardIndexOutOfRange. -/
theorem C16_counterexample :
    GetClusterCopy emptyStore "a" "c" = Except.ok { Version := 0, Shards := none } ∧
    GetShard leaderEnv emptyStore "a" "c" 0 = Ret.err ErrShardNoExists ∧
    GetShard leaderEnv emptyStore "a" "c" 0 ≠ Ret.err Error.ErrShardIndexOutOfRange :=
  ⟨rfl, by decide, by decide⟩

/-- C16 amended: for a leader and an existing cluster, `GetShard` returns
 the shard at position `shardIdx` when the index is in range; for every
 other index it fails with ErrShardIndexOutOfRange when the shard slice of
 the cluster is not nil, and with the shard-not-found error when it is nil. -/
theorem C16_GetShard (env : Env) (stor : Store) (ns cluster : String) (shardIdx : Int)
    (topo : Cluster)
    (hl : env.leader = true) (hg : GetClusterCopy stor ns cluster = Except.ok topo) :
    ((0 ≤ shardIdx ∧ shardIdx < (len topo.Shards : Int)) →
      ∃ shard, (elems topo.Shards)[shardIdx.toNat]? = some shard ∧
        GetShard env stor ns cluster shardIdx = Ret.ok shard) ∧
    (¬ (0 ≤ shardIdx ∧ shardIdx < (len topo.Shards : Int)) →
      GetShard env stor ns cluster shardIdx =
        Ret.err (if topo.Shards = none then ErrShardNoExists
          else Error.ErrShardIndexOutOfRange)) := by
  constructor
  · intro hin
    obtain ⟨shard, hs⟩ := exists_shard topo shardIdx hin
    refine ⟨shard, hs, ?_⟩
    unfold GetShard
    simp [hl, getShard_eq stor ns cluster shardIdx topo shard hg hin hs]
  · intro hin
    have hr : shardIdx ≥ (len topo.Shards : Int) ∨ shardIdx < 0 := by omega
    unfold GetShard getShard
    simp only [hl, hg]
    by_cases hnil : topo.Shards = none
    · simp [hnil, ErrShardNoExists]
    · simp [hnil, hr]

/-- C16 amended, on the sample cluster, which has one shard: index 0
 returns the sample shard. -/
theorem C16_GetShard_witness :
    ∃ shard, (elems sampleCluster.Shards)[(0 : Int).toNat]? = some shard ∧
      GetShard leaderEnv sampleStore "a" "c" 0 = Ret.ok shard :=
  (C16_GetShard leaderEnv sampleStore "a" "c" 0 sampleCluster rfl (by rfl)).1
    ⟨by decide, by decide⟩

/-! ## Effects of RemoveShard, UpdateNode and AddShardSlots -/

theorem commit_ok (env : Env) (stor : Store) (ns cluster : String) (topo : Cluster)
    (ev : Event) (hce : env.commitErr = none) :
    commit env stor ns cluster topo ev =
      ({ clusters := replace ns cluster topo stor.clusters, events := stor.events ++ [ev] },
       Ret.ok ()) := by
  simp [commit, hce]

theorem commit_not_err_New (env : Env) (stor : Store) (ns cluster : String) (topo : Cluster)
    (ev : Event) (text : String) :
    (commit env stor ns cluster topo ev).2 ≠ Ret.err (Error.New text) := by
  unfold commit
  cases env.commitErr <;> simp

/-- C12: for a leader, an existing cluster and an in-range index,
 `RemoveShard` fails with ErrShardHasSlots exactly when the shard at the index
 owns a slot range, whatever its nodes; when it owns none and the commit
 succeeds the call succeeds and the new shard sequence is the old one without
 the element at the index: one shorter, the same below the index, and shifted
 down by one above it. -/
theorem C12_RemoveShard (env : Env) (stor : Store) (ns cluster : String) (shardIdx : Int)
    (topo : Cluster) (shard : Shard)
    (hl : env.leader = true) (hg : GetClusterCopy stor ns cluster = Except.ok topo)
    (hin : 0 ≤ shardIdx ∧ shardIdx < (len topo.Shards : Int))
    (hs : (elems topo.Shards)[shardIdx.toNat]? = some shard) :
    ((RemoveShard env stor ns cluster shardIdx).2 = Ret.err ErrShardHasSlots ↔
      shard.SlotRanges ≠ []) ∧
    (shard.SlotRanges = [] → env.commitErr = none →
      (RemoveShard env stor ns cluster shardIdx).2 = Ret.ok () ∧
      ∃ topo2, GetClusterCopy (RemoveShard env stor ns cluster shardIdx).1 ns cluster =
          Except.ok topo2 ∧
        elems topo2.Shards = (elems topo.Shards).eraseIdx shardIdx.toNat ∧
        len topo2.Shards + 1 = len topo.Shards ∧
        (∀ j, j < shardIdx.toNat → (elems topo2.Shards)[j]? = (elems topo.Shards)[j]?) ∧
        (∀ j, shardIdx.toNat < j →
          (elems topo2.Shards)[j - 1]? = (elems topo.Shards)[j]?)) := by
  rw [RemoveShard_eq env stor ns cluster shardIdx topo shard hl hg hin hs]
  have hlt := inRange_toNat topo.Shards shardIdx hin
  constructor
  · cases hsl : shard.SlotRanges with
    | nil =>
      simp only [List.length_nil, gt_iff_lt, lt_self_iff_false, if_false, ne_eq,
        not_true_eq_false, iff_false]
      exact commit_not_err_New _ _ _ _ _ _ _
    | cons a rest => simp [ErrShardHasSlots]
  · intro hsl hce
    rw [hsl, commit_ok _ _ _ _ _ _ hce]
    simp only [List.length_nil, gt_iff_lt, lt_self_iff_false, if_false, true_and]
    refine ⟨_, GetClusterCopy_commit_same stor ns cluster topo _ _ hg, ?_, ?_, ?_, ?_⟩
    · rw [elems_some, List.eraseIdx_eq_take_drop_succ]
    · rw [len_some, len_eq_length, List.length_append, List.length_take, List.length_drop]
      omega
    · intro j hj
      rw [elems_some, ← List.eraseIdx_eq_take_drop_succ, List.getElem?_eraseIdx, if_pos hj]
    · intro j hj
      rw [elems_some, ← List.eraseIdx_eq_take_drop_succ, List.getElem?_eraseIdx,
        if_neg (by omega)]
      congr 1
      omega

/-- C12 on the store whose only shard has no node and no slot range:
 removing shard 0 succeeds and leaves no shard. -/
theorem C12_RemoveShard_witness :
    (RemoveShard leaderEnv emptyShardStore "a" "c" 0).2 = Ret.ok () ∧
    ∃ topo2, GetClusterCopy (RemoveShard leaderEnv emptyShardStore "a" "c" 0).1 "a" "c" =
        Except.ok topo2 ∧
      elems topo2.Shards = [emptyShard].eraseIdx (0 : Int).toNat ∧
      len topo2.Shards + 1 = 1 ∧
      (∀ j, j < (0 : Int).toNat → (elems topo2.Shards)[j]? = [emptyShard][j]?) ∧
      (∀ j, (0 : Int).toNat < j → (elems topo2.Shards)[j - 1]? = [emptyShard][j]?) :=
  (C12_RemoveShard leaderEnv emptyShardStore "a" "c" 0
    { Version := 1, Shards := some [emptyShard] } emptyShard rfl (by rfl)
    (by decide) (by decide)).2 rfl rfl

/-- C13: for a leader, an existing cluster and an in-range index,
 `UpdateNode` fails with the node-not-found error and leaves the store as it
 was when no node of the shard has the ID of the given node; otherwise, the
 commit succeeding, it succeeds, and the shard afterwards has the same slot
 ranges and as many nodes as before, the given node at the position of the
 first node with that ID and the old node at every other position, all other
 shards being unchanged. -/
theorem C13_UpdateNode (env : Env) (stor : Store) (ns cluster : String) (shardIdx : Int)
    (node : NodeInfo) (topo : Cluster) (shard : Shard)
    (hl : env.leader = true) (hg : GetClusterCopy stor ns cluster = Except.ok topo)
    (hin : 0 ≤ shardIdx ∧ shardIdx < (len topo.Shards : Int))
    (hs : (elems topo.Shards)[shardIdx.toNat]? = some shard) :
    ((∀ n ∈ elems shard.Nodes, n.ID ≠ node.ID) →
      UpdateNode env stor ns cluster shardIdx node = (stor, Ret.err (updateNotFound shard))) ∧
    ((∃ n ∈ elems shard.Nodes, n.ID = node.ID) → env.commitErr = none →
      (UpdateNode env stor ns cluster shardIdx node).2 = Ret.ok () ∧
      ∃ (idx : Nat) (old : NodeInfo) (topo2 : Cluster) (shard2 : Shard),
        (elems shard.Nodes)[idx]? = some old ∧ old.ID = node.ID ∧
        (∀ j, j < idx → ∀ n : NodeInfo, (elems shard.Nodes)[j]? = some n → n.ID ≠ node.ID) ∧
        GetClusterCopy (UpdateNode env stor ns cluster shardIdx node).1 ns cluster =
          Except.ok topo2 ∧
        elems topo2.Shards = (elems topo.Shards).set shardIdx.toNat shard2 ∧
        shard2.SlotRanges = shard.SlotRanges ∧
        len shard2.Nodes = len shard.Nodes ∧
        (elems shard2.Nodes)[idx]? = some node ∧
        (∀ j, j ≠ idx → (elems shard2.Nodes)[j]? = (elems shard.Nodes)[j]?)) := by
  rw [UpdateNode_eq env stor ns cluster shardIdx node topo shard hl hg hin hs]
  constructor
  · intro hall
    have hi := (nodeIndex_none node.ID (elems shard.Nodes)).mpr hall
    unfold updateNotFound
    by_cases hnil : shard.Nodes = none
    · simp [hnil]
    · simp [hnil, hi, ErrNodeNotFound]
  · rintro ⟨n, hn, hid⟩ hce
    have hnil : ¬ shard.Nodes = none := by
      intro h
      rw [h] at hn
      simp [elems] at hn
    cases hi : nodeIndex node.ID (elems shard.Nodes) with
    | none => exact absurd hid ((nodeIndex_none _ _).mp hi n hn)
    | some idx =>
      obtain ⟨old, hold, holdid, hfirst⟩ := nodeIndex_some _ _ _ hi
      have hlt := (List.getElem?_eq_some_iff.mp hold).1
      rw [if_neg hnil]
      simp only [commit_ok _ _ _ _ _ _ hce, true_and]
      refine ⟨idx, old, _, { shard with Nodes := some ((elems shard.Nodes).set idx node) },
        hold, holdid, hfirst, GetClusterCopy_commit_same stor ns cluster topo _ _ hg,
        rfl, rfl, ?_, ?_, ?_⟩
      · rw [len_some, List.length_set, len_eq_length]
      · rw [elems_some]
        exact List.getElem?_set_self hlt
      · intro j hj
        rw [elems_some]
        exact List.getElem?_set_ne (Ne.symm hj)

/-- C13 on the sample store: no node of the sample shard has the ID n7,
 so the update fails with the node-not-found error and changes nothing. -/
theorem C13_UpdateNode_witness :
    UpdateNode leaderEnv sampleStore "a" "c" 0
        { ID := "n7", Address := "h7:1", Role := Role.Replica } =
      (sampleStore, Ret.err (updateNotFound sampleShard)) :=
  (C13_UpdateNode leaderEnv sampleStore "a" "c" 0
    { ID := "n7", Address := "h7:1", Role := Role.Replica } sampleCluster sampleShard
    rfl (by rfl) (by decide) (by decide)).1 (by decide)

/-- C15: for a leader, an existing cluster and an in-range index,
 `AddShardSlots` fails with ErrEmptyShard exactly when the shard has no node,
 and then the store is as it was; otherwise, the commit succeeding, it
 succeeds and the cluster afterwards has the same shards except that the slot
 ranges of the shard at the index are the merge of its previous ranges with
 the given ones. -/
theorem C15_AddShardSlots (m : SlotArith) (env : Env) (stor : Store) (ns cluster : String)
    (shardIdx : Int) (slotRanges : List SlotRange) (topo : Cluster) (shard : Shard)
    (hl : env.leader = true) (hg : GetClusterCopy stor ns cluster = Except.ok topo)
    (hin : 0 ≤ shardIdx ∧ shardIdx < (len topo.Shards : Int))
    (hs : (elems topo.Shards)[shardIdx.toNat]? = some shard) :
    ((AddShardSlots m env stor ns cluster shardIdx slotRanges).2 = Ret.err ErrEmptyShard ↔
      len shard.Nodes = 0) ∧
    (len shard.Nodes = 0 →
      (AddShardSlots m env stor ns cluster shardIdx slotRanges).1 = stor) ∧
    (len shard.Nodes ≠ 0 → env.commitErr = none →
      (AddShardSlots m env stor ns cluster shardIdx slotRanges).2 = Ret.ok () ∧
      ∃ topo2,
        GetClusterCopy (AddShardSlots m env stor ns cluster shardIdx slotRanges).1
          ns cluster = Except.ok topo2 ∧
        elems topo2.Shards = (elems topo.Shards).set shardIdx.toNat
          { Nodes := shard.Nodes,
            SlotRanges := m.MergeSlotRanges shard.SlotRanges slotRanges }) := by
  rw [AddShardSlots_eq m env stor ns cluster shardIdx slotRanges topo shard hl hg hin hs]
  refine ⟨?_, ?_, ?_⟩
  · by_cases h0 : len shard.Nodes = 0
    · simp [h0, ErrEmptyShard]
    · simp only [h0, if_false, iff_false]
      exact commit_not_err_New _ _ _ _ _ _ _
  · intro h0
    simp [h0]
  · intro h0 hce
    rw [if_neg h0, commit_ok _ _ _ _ _ _ hce]
    exact ⟨rfl, _, GetClusterCopy_commit_same stor ns cluster topo _ _ hg, rfl⟩

/-- C15 on the store whose only shard has no node: adding a slot range
 fails with ErrEmptyShard. -/
theorem C15_AddShardSlots_witness :
    (AddShardSlots listArith leaderEnv emptyShardStore "a" "c" 0
      [{ Start := 0, Stop := 100 }]).2 = Ret.err ErrEmptyShard :=
  (C15_AddShardSlots listArith leaderEnv emptyShardStore "a" "c" 0
    [{ Start := 0, Stop := 100 }] { Version := 1, Shards := some [emptyShard] } emptyShard
    rfl (by rfl) (by decide) (by decide)).1.mpr (by decide)

/-! ## Successful CreateNode and RemoveNode -/

/-- A successful `RemoveNode` found the first node with the ID in an
 in-range shard of an existing cluster, passed the slot and role checks, and
 committed the cluster with that node spliced out. -/
theorem RemoveNode_ok (env : Env) (stor : Store) (ns cluster : String) (shardIdx : Int)
    (nodeID : String) (h : (RemoveNode env stor ns cluster shardIdx nodeID).2 = Ret.ok ()) :
    ∃ (topo : Cluster) (shard : Shard) (nodeIdx : Nat) (node : NodeInfo),
      GetClusterCopy stor ns cluster = Except.ok topo ∧
      (0 ≤ shardIdx ∧ shardIdx < (len topo.Shards : Int)) ∧
      (elems topo.Shards)[shardIdx.toNat]? = some shard ∧
      ShardStep listArith shard shardIdx (Call.RemoveNode ns cluster shardIdx nodeID)
        { shard with
          Nodes := some ((elems shard.Nodes).take nodeIdx ++
            (elems shard.Nodes).drop (nodeIdx + 1)) }
        { Namespace := ns, Cluster := cluster, Shard := shardIdx, NodeID := node.ID,
          Type_ := EventType.EventNode, Command := Command.CommandRemove } ∧
      nodeIndex nodeID (elems shard.Nodes) = some nodeIdx ∧
      (elems shard.Nodes)[nodeIdx]? = some node ∧
      GetClusterCopy (RemoveNode env stor ns cluster shardIdx nodeID).1 ns cluster =
        Except.ok (withShard topo shardIdx { shard with
          Nodes := some ((elems shard.Nodes).take nodeIdx ++
            (elems shard.Nodes).drop (nodeIdx + 1)) }) := by
  rcases RemoveNode_view listArith env stor ns cluster shardIdx nodeID with
    ⟨topo, topo2, ev, hg, he, -, -, hout⟩ | ⟨-, h2⟩
  · cases he with
    | onShard _ idx shard shard2 _ hin hs hst =>
      cases hst with
      | removeNode _ _ _ nodeIdx node hidx hnode hcheck =>
        refine ⟨topo, shard, nodeIdx, node, hg, hin, hs,
          ShardStep.removeNode ns cluster nodeID nodeIdx node hidx hnode hcheck,
          hidx, hnode, ?_⟩
        rw [hout]
        exact GetClusterCopy_commit_same stor ns cluster topo _ _ hg
  · exact absurd h h2

/-- A successful `CreateNode` passed the address and role checks on an
 in-range shard of an existing cluster and committed the cluster with the
 node appended to that shard. -/
theorem CreateNode_ok (env : Env) (stor : Store) (ns cluster : String) (shardIdx : Int)
    (node : NodeInfo) (h : (CreateNode env stor ns cluster shardIdx node).2 = Ret.ok ()) :
    ∃ (topo : Cluster) (shard : Shard),
      GetClusterCopy stor ns cluster = Except.ok topo ∧
      (0 ≤ shardIdx ∧ shardIdx < (len topo.Shards : Int)) ∧
      (elems topo.Shards)[shardIdx.toNat]? = some shard ∧
      ShardStep listArith shard shardIdx (Call.CreateNode ns cluster shardIdx node)
        { shard with Nodes := some (elems shard.Nodes ++ [node]) }
        { Namespace := ns, Cluster := cluster, Shard := shardIdx, NodeID := node.ID,
          Type_ := EventType.EventNode, Command := Command.CommandCreate } ∧
      GetClusterCopy (CreateNode env stor ns cluster shardIdx node).1 ns cluster =
        Except.ok (withShard topo shardIdx
          { shard with Nodes := some (elems shard.Nodes ++ [node]) }) := by
  rcases CreateNode_view listArith env stor ns cluster shardIdx node with
    ⟨topo, topo2, ev, hg, he, -, -, hout⟩ | ⟨-, h2⟩
  · cases he with
    | onShard _ idx shard shard2 _ hin hs hst =>
      cases hst with
      | createNode _ _ _ hfresh hfirst hrest =>
        refine ⟨topo, shard, hg, hin, hs,
          ShardStep.createNode ns cluster node hfresh hfirst hrest, ?_⟩
        rw [hout]
        exact GetClusterCopy_commit_same stor ns cluster topo _ _ hg
  · exact absurd h h2

/-- C18: when `RemoveNode` succeeds, the node sequence of the addressed
 shard afterwards is the previous one with one element deleted, the first
 node whose ID is the requested one: it is one shorter, the nodes before that
 position stay where they were and the nodes after it move down by one; the
 slot ranges of the shard and all other shards are unchanged. -/
theorem C18_RemoveNode_effect (env : Env) (stor : Store) (ns cluster : String)
    (shardIdx : Int) (nodeID : String)
    (h : (RemoveNode env stor ns cluster shardIdx nodeID).2 = Ret.ok ()) :
    ∃ (topo topo2 : Cluster) (shard : Shard) (nodeIdx : Nat) (node : NodeInfo)
      (nodes2 : List NodeInfo),
      GetClusterCopy stor ns cluster = Except.ok topo ∧
      (elems topo.Shards)[shardIdx.toNat]? = some shard ∧
      (elems shard.Nodes)[nodeIdx]? = some node ∧ node.ID = nodeID ∧
      (∀ j, j < nodeIdx → ∀ n : NodeInfo, (elems shard.Nodes)[j]? = some n → n.ID ≠ nodeID) ∧
      GetClusterCopy (RemoveNode env stor ns cluster shardIdx nodeID).1 ns cluster =
        Except.ok topo2 ∧
      elems topo2.Shards = (elems topo.Shards).set shardIdx.toNat
        { Nodes := some nodes2, SlotRanges := shard.SlotRanges } ∧
      nodes2 = (elems shard.Nodes).eraseIdx nodeIdx ∧
      nodes2.length + 1 = (elems shard.Nodes).length ∧
      (∀ j, j < nodeIdx → nodes2[j]? = (elems shard.Nodes)[j]?) ∧
      (∀ j, nodeIdx ≤ j → nodes2[j]? = (elems shard.Nodes)[j + 1]?) := by
  obtain ⟨topo, shard, nodeIdx, node, hg, -, hs, -, hidx, hnode, hafter⟩ :=
    RemoveNode_ok env stor ns cluster shardIdx nodeID h
  obtain ⟨n, hn, hid, hfirst⟩ := nodeIndex_some _ _ _ hidx
  rw [hnode] at hn
  cases hn
  have hlt := (List.getElem?_eq_some_iff.mp hnode).1
  refine ⟨topo, _, shard, nodeIdx, node, (elems shard.Nodes).eraseIdx nodeIdx, hg, hs, hnode,
    hid, hfirst, hafter, ?_, rfl, ?_, ?_, ?_⟩
  · simp only [withShard, elems_some, List.eraseIdx_eq_take_drop_succ]
  · rw [List.length_eraseIdx, if_pos hlt]
    omega
  · intro j hj
    rw [List.getElem?_eraseIdx, if_pos hj]
  · intro j hj
    rw [List.getElem?_eraseIdx, if_neg (by omega)]

/-- C18 on the sample store: removing the Replica n2 leaves the Master n1
 alone in the shard, whose slot range stays. -/
theorem C18_RemoveNode_effect_witness :
    ∃ (topo topo2 : Cluster) (shard : Shard) (nodeIdx : Nat) (node : NodeInfo)
      (nodes2 : List NodeInfo),
      GetClusterCopy sampleStore "a" "c" = Except.ok topo ∧
      (elems topo.Shards)[(0 : Int).toNat]? = some shard ∧
      (elems shard.Nodes)[nodeIdx]? = some node ∧ node.ID = "n2" ∧
      (∀ j, j < nodeIdx → ∀ n : NodeInfo, (elems shard.Nodes)[j]? = some n → n.ID ≠ "n2") ∧
      GetClusterCopy (RemoveNode leaderEnv sampleStore "a" "c" 0 "n2").1 "a" "c" =
        Except.ok topo2 ∧
      elems topo2.Shards = (elems topo.Shards).set (0 : Int).toNat
        { Nodes := some nodes2, SlotRanges := shard.SlotRanges } ∧
      nodes2 = (elems shard.Nodes).eraseIdx nodeIdx ∧
      nodes2.length + 1 = (elems shard.Nodes).length ∧
      (∀ j, j < nodeIdx → nodes2[j]? = (elems shard.Nodes)[j]?) ∧
      (∀ j, nodeIdx ≤ j → nodes2[j]? = (elems shard.Nodes)[j + 1]?) :=
  C18_RemoveNode_effect leaderEnv sampleStore "a" "c" 0 "n2" (by decide)

/-! ## CreateNode followed by RemoveNode -/

/-- C17, as the code has it: on a shard that has no node but owns a slot
 range, `CreateNode` of a Master succeeds and the following `RemoveNode` of
 that node is refused with ErrSlotsPresentMigrateFirst, the node being the
 only node of a slot-owning shard; and on a cluster whose version is the
 largest `int64`, 2^63 - 1, the two calls succeed on an empty shard and leave
 the version at -2^63 + 1, the counter having wrapped. -/
theorem C17_counterexample :
    GetClusterCopy slotsOnlyStore "a" "c" =
      Except.ok { Version := 1, Shards := some [slotsOnly] } ∧
    len slotsOnly.Nodes = 0 ∧ sampleMaster.Role = Role.Master ∧
    (CreateNode leaderEnv slotsOnlyStore "a" "c" 0 sampleMaster).2 = Ret.ok () ∧
    (RemoveNode leaderEnv (CreateNode leaderEnv slotsOnlyStore "a" "c" 0 sampleMaster).1
      "a" "c" 0 sampleMaster.ID).2 = Ret.err ErrSlotsPresentMigrateFirst ∧
    GetClusterCopy maxVersionStore "a" "c" =
      Except.ok { Version := 9223372036854775807, Shards := some [emptyShard] } ∧
    len emptyShard.Nodes = 0 ∧
    (CreateNode leaderEnv maxVersionStore "a" "c" 0 sampleMaster).2 = Ret.ok () ∧
    (RemoveNode leaderEnv (CreateNode leaderEnv maxVersionStore "a" "c" 0 sampleMaster).1
      "a" "c" 0 sampleMaster.ID).2 = Ret.ok () ∧
    GetClusterCopy
      (RemoveNode leaderEnv (CreateNode leaderEnv maxVersionStore "a" "c" 0 sampleMaster).1
        "a" "c" 0 sampleMaster.ID).1 "a" "c" =
      Except.ok { Version := -9223372036854775807,
                  Shards := some [{ Nodes := some [], SlotRanges := [] }] } ∧
    (-9223372036854775807 : Int) ≠ 9223372036854775807 + 2 :=
  ⟨rfl, rfl, rfl, by decide, by decide, rfl, rfl, by decide, by decide, by rfl, by decide⟩

/-- C17 amended: for a leader whose commits succeed, an existing cluster
 whose version is an `int64` at most 2^63 - 3, and an in-range index whose
 shard has no node and owns no slot range, `CreateNode` of a Master followed
 by `RemoveNode` of its ID both succeed; the shard is again without nodes,
 its slot ranges and all other shards are as before, and the version of the
 cluster is the original one plus two. -/
theorem C17_create_then_remove (env1 env2 : Env) (stor : Store) (ns cluster : String)
    (shardIdx : Int) (node : NodeInfo) (topo : Cluster) (shard : Shard)
    (hl1 : env1.leader = true) (hc1 : env1.commitErr = none)
    (hl2 : env2.leader = true) (hc2 : env2.commitErr = none)
    (hg : GetClusterCopy stor ns cluster = Except.ok topo)
    (hin : 0 ≤ shardIdx ∧ shardIdx < (len topo.Shards : Int))
    (hs : (elems topo.Shards)[shardIdx.toNat]? = some shard)
    (hempty : len shard.Nodes = 0) (hslots : shard.SlotRanges = [])
    (hmaster : node.Role = Role.Master)
    (hv : isInt64 topo.Version) (hmax : topo.Version + 2 ≤ 9223372036854775807) :
    (CreateNode env1 stor ns cluster shardIdx node).2 = Ret.ok () ∧
    (RemoveNode env2 (CreateNode env1 stor ns cluster shardIdx node).1 ns cluster shardIdx
      node.ID).2 = Ret.ok () ∧
    ∃ topo2,
      GetClusterCopy
        (RemoveNode env2 (CreateNode env1 stor ns cluster shardIdx node).1 ns cluster shardIdx
          node.ID).1 ns cluster = Except.ok topo2 ∧
      topo2.Version = topo.Version + 2 ∧
      elems topo2.Shards = (elems topo.Shards).set shardIdx.toNat
        { Nodes := some [], SlotRanges := shard.SlotRanges } := by
  have hlt := inRange_toNat topo.Shards shardIdx hin
  have hnil : elems shard.Nodes = [] := by
    rw [len_eq_length] at hempty
    exact List.length_eq_zero.mp hempty
  have hm : node.IsMaster = true := by simp [NodeInfo.IsMaster, hmaster]
  have hcreate := CreateNode_eq env1 stor ns cluster shardIdx node topo shard hl1 hg hin hs
  rw [hnil] at hcreate
  simp only [List.any_nil, hempty, hm, ne_eq, not_true_eq_false, false_and, and_false,
    if_false, Bool.false_eq_true, Bool.true_eq_false, List.nil_append, true_and] at hcreate
  rw [commit_ok _ _ _ _ _ _ hc1] at hcreate
  have hok1 : (CreateNode env1 stor ns cluster shardIdx node).2 = Ret.ok () := by
    rw [hcreate]
  have hg1 : GetClusterCopy (CreateNode env1 stor ns cluster shardIdx node).1 ns cluster =
      Except.ok (withShard topo shardIdx { shard with Nodes := some [node] }) := by
    rw [hcreate]
    exact GetClusterCopy_commit_same stor ns cluster topo _ _ hg
  have hin1 : 0 ≤ shardIdx ∧ shardIdx <
      (len (withShard topo shardIdx { shard with Nodes := some [node] }).Shards : Int) := by
    simp only [withShard, len_some, List.length_set]
    rw [← len_eq_length]
    exact hin
  have hs1 : (elems (withShard topo shardIdx { shard with Nodes := some [node] }).Shards)[
      shardIdx.toNat]? = some { shard with Nodes := some [node] } := by
    simp only [withShard, elems_some]
    exact List.getElem?_set_self hlt
  have hremove := RemoveNode_found env2 (CreateNode env1 stor ns cluster shardIdx node).1
    ns cluster shardIdx node.ID (withShard topo shardIdx { shard with Nodes := some [node] })
    { shard with Nodes := some [node] } 0 node hl2 hg1 hin1 hs1
    (by simp [elems_some, nodeIndex]) (by simp [elems_some])
  have hcheck : removeCheck { shard with Nodes := some [node] } node = none := by
    simp [removeCheck, hslots, len_some]
  rw [hcheck] at hremove
  simp only [commit_ok _ _ _ _ _ _ hc2] at hremove
  rw [hremove]
  refine ⟨hok1, rfl, _, GetClusterCopy_commit_same _ ns cluster _ _ _ hg1, ?_, ?_⟩
  · simp only [withShard]
    unfold isInt64 at hv
    unfold wrapInt64
    omega
  · simp [withShard, elems_some, List.set_set]

/-- C17 amended, on the store whose only shard has no node and no slot
 range: creating and removing the Master n1 leaves the shard without nodes
 and the cluster at version 3. -/
theorem C17_create_then_remove_witness :
    (CreateNode leaderEnv emptyShardStore "a" "c" 0 sampleMaster).2 = Ret.ok () ∧
    (RemoveNode leaderEnv (CreateNode leaderEnv emptyShardStore "a" "c" 0 sampleMaster).1
      "a" "c" 0 sampleMaster.ID).2 = Ret.ok () ∧
    ∃ topo2,
      GetClusterCopy
        (RemoveNode leaderEnv (CreateNode leaderEnv emptyShardStore "a" "c" 0 sampleMaster).1
          "a" "c" 0 sampleMaster.ID).1 "a" "c" = Except.ok topo2 ∧
      topo2.Version = 1 + 2 ∧
      elems topo2.Shards = [emptyShard].set (0 : Int).toNat
        { Nodes := some [], SlotRanges := emptyShard.SlotRanges } :=
  C17_create_then_remove leaderEnv leaderEnv emptyShardStore "a" "c" 0 sampleMaster
    { Version := 1, Shards := some [emptyShard] } emptyShard rfl rfl rfl rfl (by rfl)
    (by decide) (by decide) rfl rfl rfl ⟨by decide, by decide⟩ (by decide)

/-! ## The shard integrity predicate -/

theorem Integrity.hasMaster {shard : Shard} (h : Integrity shard) : HasMaster shard := by
  rintro (hn | hsl)
  · have h1 := h.2.1 hn
    unfold masters at h1
    have h2 : 0 < List.countP (fun n : NodeInfo => n.IsMaster) (elems shard.Nodes) := by
      rw [h1]
      exact Nat.one_pos
    obtain ⟨n, hmem, hmaster⟩ := List.countP_pos_iff.mp h2
    exact ⟨n, hmem, hmaster⟩
  · exact h.2.2 hsl

/-- A step of `CreateNode` or `RemoveNode` on a shard keeps its integrity. -/
theorem Integrity_step {shard shard2 : Shard} {shardIdx : Int} {call : Call} {ev : Event}
    (hst : ShardStep listArith shard shardIdx call shard2 ev) (hgood : Integrity shard)
    (hcall : ∀ ns cluster node, call ≠ Call.UpdateNode ns cluster shardIdx node) :
    Integrity shard2 := by
  refine ⟨?_, ?_, ?_⟩
  · exact DistinctAddresses_step hst hgood.1
      (fun ns cluster node h => absurd h (hcall ns cluster node))
  · exact OneMaster_step hst hgood.2.1
      (fun ns cluster node h => absurd h (hcall ns cluster node))
  · intro hsl
    exact HasMaster_step hst hgood.hasMaster (fun _ => rfl)
      (fun ns cluster node h => absurd h (hcall ns cluster node)) (Or.inr hsl)

/-- C20: on an in-range shard of an existing cluster that has pairwise
 distinct addresses, no node or exactly one Master, and a Master whenever it
 owns a slot range, every successful `CreateNode` and every successful
 `RemoveNode` leaves a cluster whose shards are the previous ones except for
 the addressed shard, which still has the three properties. -/
theorem C20_integrity_preserved (env : Env) (stor : Store) (ns cluster : String)
    (shardIdx : Int) (topo : Cluster) (shard : Shard)
    (hg : GetClusterCopy stor ns cluster = Except.ok topo)
    (hs : (elems topo.Shards)[shardIdx.toNat]? = some shard)
    (hgood : Integrity shard) :
    (∀ node, (CreateNode env stor ns cluster shardIdx node).2 = Ret.ok () →
      ∃ topo2 shard2,
        GetClusterCopy (CreateNode env stor ns cluster shardIdx node).1 ns cluster =
          Except.ok topo2 ∧
        elems topo2.Shards = (elems topo.Shards).set shardIdx.toNat shard2 ∧
        Integrity shard2) ∧
    (∀ nodeID, (RemoveNode env stor ns cluster shardIdx nodeID).2 = Ret.ok () →
      ∃ topo2 shard2,
        GetClusterCopy (RemoveNode env stor ns cluster shardIdx nodeID).1 ns cluster =
          Except.ok topo2 ∧
        elems topo2.Shards = (elems topo.Shards).set shardIdx.toNat shard2 ∧
        Integrity shard2) := by
  constructor
  · intro node hok
    obtain ⟨t, sh, hgt, -, hst, hstep, hafter⟩ := CreateNode_ok env stor ns cluster shardIdx node hok
    rw [hg] at hgt
    cases hgt
    rw [hs] at hst
    cases hst
    exact ⟨_, _, hafter, rfl, Integrity_step hstep hgood (fun _ _ _ h => by cases h)⟩
  · intro nodeID hok
    obtain ⟨t, sh, nodeIdx, n, hgt, -, hst, hstep, -, -, hafter⟩ :=
      RemoveNode_ok env stor ns cluster shardIdx nodeID hok
    rw [hg] at hgt
    cases hgt
    rw [hs] at hst
    cases hst
    exact ⟨_, _, hafter, rfl, Integrity_step hstep hgood (fun _ _ _ h => by cases h)⟩

/-- C20 on the sample shard, which has the three properties: adding the
 Replica n3 at a new address leaves a shard that has them too. -/
theorem C20_integrity_preserved_witness :
    ∃ topo2 shard2,
      GetClusterCopy (CreateNode leaderEnv sampleStore "a" "c" 0
        { ID := "n3", Address := "h3:1", Role := Role.Replica }).1 "a" "c" =
        Except.ok topo2 ∧
      elems topo2.Shards = (elems sampleCluster.Shards).set (0 : Int).toNat shard2 ∧
      Integrity shard2 :=
  (C20_integrity_preserved leaderEnv sampleStore "a" "c" 0 sampleCluster sampleShard
    (by rfl) (by decide)
    ⟨by unfold DistinctAddresses; decide, fun _ => by decide,
      fun _ => ⟨sampleMaster, by decide, by decide⟩⟩).1
    { ID := "n3", Address := "h3:1", Role := Role.Replica } (by decide)

end Storage
